import Mathlib

/-!
# Line-item report pipeline of the campaign resolvers

A shallow embedding of the report pipeline in
`server/src/graphql/resolvers/campaign.js` (`pollReportStatus`,
`Campaign.gamLineItemReport`, `Mutation.adMetricsExcludedGAMLineItemIds`) and of the
post-save hook in `server/src/schema/campaign.js` (`clearReportCache`).

Asynchronous code is embedded as explicit state passing over a `World`; the answers of
the collaborators that live outside the repository (customer loader, line-item lookup,
the reporting API, the HTTP download and the CSV decoder) are read from an `Env`.
-/

namespace LeadManagement

/-! ## Report rows -/

/-- One object level of a decoded row: column name to cell text. -/
abbrev Cells := List (String × String)

/-- A decoded report row. The CSV decoder nests a header such as
`Dimension.LINE_ITEM_ID` into `row.Dimension.LINE_ITEM_ID`, and every cell is text,
so a row is an object of objects of strings. -/
abbrev ReportRow := List (String × Cells)

/-- The path read `get(row, 'Dimension.LINE_ITEM_ID')`: `none` is `undefined`. -/
def lineItemIdOf (row : ReportRow) : Option String :=
  match row.lookup "Dimension" with
  | none => none
  | some cells => cells.lookup "LINE_ITEM_ID"

/-- The call `excludedIds.includes(lineItemId)` on a list of strings: `undefined` is
never an element. -/
def includes (excludedIds : List String) (lineItemId : Option String) : Bool :=
  match lineItemId with
  | none => false
  | some id => excludedIds.contains id

/-- The closure `filterResponse` of `gamLineItemReport` (lines 120 to 123). -/
def filterResponse (excludedIds : List String) (rows : List ReportRow) : List ReportRow :=
  rows.filter (fun row => !(includes excludedIds (lineItemIdOf row)))

/-- A row is excluded when its line-item id is a member of the exclusion list. -/
def Excluded (excludedIds : List String) (row : ReportRow) : Prop :=
  ∃ id, lineItemIdOf row = some id ∧ id ∈ excludedIds

/-- A report row that carries only the line-item dimension. -/
def rowFor (id : String) : ReportRow := [("Dimension", [("LINE_ITEM_ID", id)])]

/-! ## The cache store -/

/-- The text held under a cache key. `json rows` is the text that `JSON.stringify`
produces for `rows` (and that `JSON.parse` reads back as `rows`), `blank` is the empty
string, `garbage raw` is any other text, which `JSON.parse` rejects. -/
inductive Payload where
  | json (rows : List ReportRow)
  | blank
  | garbage (raw : String)
  deriving DecidableEq, Repr

/-- The call `JSON.stringify(result)` on a list of rows. -/
def JSON.stringify (result : List ReportRow) : Payload := Payload.json result

/-- The call `JSON.parse(text)`: a `SyntaxError` on text that is not JSON. -/
def JSON.parse : Payload → Except String (List ReportRow)
  | Payload.json rows => Except.ok rows
  | Payload.blank => Except.error "SyntaxError: Unexpected end of JSON input"
  | Payload.garbage raw => Except.error ("SyntaxError: Unexpected token in JSON: " ++ raw)

/-- Truthiness of the answer of `redis.getAsync`: `null` and the empty string are falsy. -/
def truthy : Option Payload → Bool
  | none => false
  | some Payload.blank => false
  | some _ => true

/-- A stored value with its absolute expiry, in seconds. -/
structure CacheEntry where
  data : Payload
  expiresAt : Nat
  deriving DecidableEq, Repr

/-! ## Campaign documents -/

/-- The fields of a campaign document that the pipeline reads. -/
structure Campaign where
  id : String
  customerId : String
  deleted : Bool
  startDate : Option Nat
  endDate : Option Nat
  excludedGAMLineItemIds : List String
  excludedBrightcoveVideoIds : List String := []
  deriving DecidableEq, Repr

/-! ## Calls, world and environment -/

/-- The calls that leave the resolver, in the order they are issued. -/
inductive Call where
  | redisGet (key : String)
  | redisSetex (key : String) (seconds : Nat) (data : Payload)
  | redisDel (key : String)
  | customerLoad (customerId : String)
  | gamLoadMany (startDate endDate : Option Nat) (gamAdvertiserIds : List String) (limit : Nat)
  | runReportJob (startDate endDate query : String)
  | getReportJobStatus (reportJobId : Nat)
  | getReportDownloadUrl (reportJobId : Nat)
  | fetch (url : String)
  | csvToJson (body : String)
  | authCheck
  | campaignFindOne (id : String)
  | campaignPersist (id : String)
  | noticeError (error : String)
  | getBrightcoveReport (videoIds : List String) (start finish : Nat)
  deriving DecidableEq, Repr

/-- The mutable state: the clock (seconds), the cache store, the number of status
checks the reporting API has answered, the campaign collection and the call log. -/
structure World where
  now : Nat
  store : List (String × CacheEntry)
  polls : Nat
  campaigns : List Campaign
  log : List Call

/-- The connection object a video report answers with: `emptyResponse` of
`brightcoveVideoReport` is the one with no nodes. -/
structure VideoConnection where
  totalCount : Nat
  nodes : List String
  hasNextPage : Bool
  hasPreviousPage : Bool
  deriving DecidableEq, Repr

/-- The answers of the collaborators outside the repository. An `Except.error` is a
rejected promise. `statusAt k` is the answer to the status check number `k`.
`subtractFiveYears` and `formatDate` stand for `moment().subtract(5, 'years')` and
`moment(d).format('YYYY-MM-DD')`. `customerVideoIds` is the `brightcoveVideoIds` of the
loaded customer (`none`: missing), `videoReport` the answer of `getBrightcoveReport`
for the requested video ids and time range. -/
structure Env where
  redisGetError : Option String
  redisSetexError : Option String
  redisDelError : Option String
  customer : String → Except String (Option (List String))
  lineItems : Except String (List String)
  reportJob : Except String Nat
  statusAt : Nat → Except String String
  downloadUrl : Except String String
  download : String → Except String String
  decode : String → Except String (List ReportRow)
  authCheck : Except String Unit
  persistError : Option String
  subtractFiveYears : Nat → Nat
  formatDate : Nat → String
  customerVideoIds : String → Except String (Option (List String)) := fun _ => Except.ok none
  videoReport : List String → Nat → Nat → Except String VideoConnection :=
    fun ids _ _ => Except.ok ⟨ids.length, ids, false, false⟩

/-- An asynchronous computation: `none` when the given fuel does not suffice, otherwise
the value or the thrown error together with the world it leaves. -/
abbrev Async (α : Type) := World → Option (Except String α × World)

/-- Sequencing (`await`): a thrown error skips the rest. -/
def andThen {α β : Type} (m : Async α) (k : α → Async β) : Async β := fun w =>
  match m w with
  | none => none
  | some (Except.error e, w1) => some (Except.error e, w1)
  | some (Except.ok a, w1) => k a w1

/-- Returning a value. -/
def ret {α : Type} (a : α) : Async α := fun w => some (Except.ok a, w)

/-- Throwing an error. -/
def throw {α : Type} (e : String) : Async α := fun w => some (Except.error e, w)

/-- Issuing a call to a collaborator and receiving its answer. -/
def call {α : Type} (c : Call) (answer : Except String α) : Async α := fun w =>
  some (answer, { w with log := w.log ++ [c] })

/-- Reading the clock (`new Date()`). -/
def getNow : Async Nat := fun w => some (Except.ok w.now, w)

/-- The live value under a key: an entry past its expiry is absent. -/
def liveValue (w : World) (key : String) : Option Payload :=
  match w.store.lookup key with
  | none => none
  | some entry => if w.now < entry.expiresAt then some entry.data else none

/-- The store call `redis.getAsync(key)`. -/
def redis.getAsync (env : Env) (key : String) : Async (Option Payload) := fun w =>
  let w1 := { w with log := w.log ++ [Call.redisGet key] }
  match env.redisGetError with
  | some e => some (Except.error e, w1)
  | none => some (Except.ok (liveValue w key), w1)

/-- The store call `redis.setexAsync(key, seconds, data)`: replaces the entry. -/
def redis.setexAsync (env : Env) (key : String) (seconds : Nat) (data : Payload) :
    Async Unit := fun w =>
  let w1 := { w with log := w.log ++ [Call.redisSetex key seconds data] }
  match env.redisSetexError with
  | some e => some (Except.error e, w1)
  | none =>
    some (Except.ok (),
      { w1 with store := (key, ⟨data, w.now + seconds⟩) :: w.store.filter (fun kv => kv.1 != key) })

/-- The store call `redis.delAsync(key)`. -/
def redis.delAsync (env : Env) (key : String) : Async Unit := fun w =>
  let w1 := { w with log := w.log ++ [Call.redisDel key] }
  match env.redisDelError with
  | some e => some (Except.error e, w1)
  | none => some (Except.ok (), { w1 with store := w.store.filter (fun kv => kv.1 != key) })

/-- Time passing between two requests. -/
def elapse (seconds : Nat) (w : World) : World := { w with now := w.now + seconds }

/-! ## The polling loop -/

/-- The function `pollReportStatus` (lines 60 to 74). Each unit of fuel pays for one
status check; the source recurses without a bound. -/
def pollReportStatus (env : Env) (reportJobId : Nat) : Nat → Async Bool
  | 0 => fun _ => none
  | fuel + 1 => fun w =>
    let w1 := { w with polls := w.polls + 1, log := w.log ++ [Call.getReportJobStatus reportJobId] }
    match env.statusAt w.polls with
    | Except.error e => some (Except.error e, w1)
    | Except.ok status =>
      if status = "IN_PROGRESS" then pollReportStatus env reportJobId fuel w1
      else if status = "COMPLETED" then some (Except.ok true, w1)
      else if status = "FAILED" then some (Except.error "Report creation failed!", w1)
      else some (Except.error ("Unknown report status encountered: '" ++ status ++ "'"), w1)

/-! ## The report resolver -/

/-- The template `campaign:gam-line-item-report:${campaign.id}` of the resolver
(line 127). -/
def cacheKey (campaignId : String) : String := "campaign:gam-line-item-report:" ++ campaignId

/-- The closure `setToCache` of `gamLineItemReport` (lines 129 to 133). -/
def setToCache (env : Env) (key : String) (result : List ReportRow) : Async Unit :=
  redis.setexAsync env key (60 * 60) (JSON.stringify result)

/-- The part of `Campaign.gamLineItemReport` that runs after a cache miss (lines 138 to
208): customer lookup, line-item lookup, job submission, polling, download, decoding,
cache write. -/
def reportPipeline (env : Env) (fuel : Nat) (campaign : Campaign) : Async (List ReportRow) :=
  let excludedIds := campaign.excludedGAMLineItemIds
  let emptyResponse : List ReportRow := []
  let key := cacheKey campaign.id
  andThen (call (Call.customerLoad campaign.customerId) (env.customer campaign.customerId))
    fun gamAdvertiserIds =>
  match gamAdvertiserIds with
  | none => andThen (setToCache env key emptyResponse) fun _ => ret emptyResponse
  | some [] => andThen (setToCache env key emptyResponse) fun _ => ret emptyResponse
  | some (a :: as) =>
    andThen (call (Call.gamLoadMany campaign.startDate campaign.endDate (a :: as) 500)
      env.lineItems) fun lineItemIds =>
    if lineItemIds.length = 0 then
      andThen (setToCache env key emptyResponse) fun _ => ret emptyResponse
    else
      andThen getNow fun now =>
      let start := campaign.startDate.getD (env.subtractFiveYears now)
      let finish := campaign.endDate.getD now
      let startDate := env.formatDate start
      let endDate := env.formatDate (if finish > now then now else finish)
      let query := "WHERE LINE_ITEM_ID IN (" ++ ",".intercalate lineItemIds ++ ")"
      andThen (call (Call.runReportJob startDate endDate query) env.reportJob)
        fun reportJobId =>
      andThen (pollReportStatus env reportJobId fuel) fun _ =>
      andThen (call (Call.getReportDownloadUrl reportJobId) env.downloadUrl)
        fun downloadUrl =>
      andThen (call (Call.fetch downloadUrl) (env.download downloadUrl)) fun body =>
      andThen (call (Call.csvToJson body) (env.decode body)) fun json =>
      andThen (setToCache env key json) fun _ =>
      ret (filterResponse excludedIds json)

/-- The resolver `Campaign.gamLineItemReport` (lines 115 to 209): the cache read, the
filtered cached rows on a hit (line 136), otherwise the pipeline. -/
def gamLineItemReport (env : Env) (fuel : Nat) (campaign : Campaign) :
    Async (List ReportRow) :=
  let excludedIds := campaign.excludedGAMLineItemIds
  let key := cacheKey campaign.id
  andThen (redis.getAsync env key) fun fromCache =>
  match fromCache, truthy fromCache with
  | some text, true =>
    andThen (fun w => some (JSON.parse text, w)) fun rows =>
    ret (filterResponse excludedIds rows)
  | _, _ => reportPipeline env fuel campaign

/-! ## The campaign save hook and the exclusion mutation -/

/-- The post-save hook `clearReportCache` of the campaign schema (lines 295 to 298):
the delete is issued, a rejection goes to `newrelic.noticeError`, the hook resolves. -/
def clearReportCache (env : Env) (campaign : Campaign) : Async Unit := fun w =>
  match redis.delAsync env ("campaign:gam-line-item-report:" ++ campaign.id) w with
  | none => none
  | some (Except.ok _, w1) => some (Except.ok (), w1)
  | some (Except.error e, w1) =>
    some (Except.ok (), { w1 with log := w1.log ++ [Call.noticeError e] })

/-- The document method `campaign.save()`: the document is persisted, then the post-save
hook runs; a rejected save persists nothing and runs no hook. -/
def Campaign.save (env : Env) (campaign : Campaign) : Async Campaign :=
  andThen (fun w =>
    let w1 := { w with log := w.log ++ [Call.campaignPersist campaign.id] }
    match env.persistError with
    | some e => some (Except.error e, w1)
    | none =>
      some (Except.ok (),
        { w1 with campaigns := w.campaigns.map (fun c => if c.id = campaign.id then campaign else c) }))
    fun _ =>
  andThen (clearReportCache env campaign) fun _ =>
  ret campaign

/-- The query `Campaign.findOne` on `_id` and `deleted: false`. -/
def Campaign.findOne (id : String) : Async (Option Campaign) := fun w =>
  some (Except.ok (w.campaigns.find? (fun c => c.id = id && !c.deleted)),
    { w with log := w.log ++ [Call.campaignFindOne id] })

/-- The resolver `Mutation.adMetricsExcludedGAMLineItemIds` (lines 595 to 602). -/
def adMetricsExcludedGAMLineItemIds (env : Env) (id : String) (excludedIds : List String) :
    Async Campaign :=
  andThen (call Call.authCheck env.authCheck) fun _ =>
  andThen (Campaign.findOne id) fun found =>
  match found with
  | none => throw ("No campaign record found for ID " ++ id ++ ".")
  | some campaign =>
    Campaign.save env { campaign with excludedGAMLineItemIds := excludedIds }

/-- The number of status checks in a call log. -/
def statusChecks (log : List Call) : Nat :=
  (log.filter (fun c => match c with | Call.getReportJobStatus _ => true | _ => false)).length

/-- Whether a call reaches the reporting API, the line-item lookup or the download. -/
def Call.isRemote : Call → Bool
  | Call.gamLoadMany _ _ _ _ => true
  | Call.runReportJob _ _ _ => true
  | Call.getReportJobStatus _ => true
  | Call.getReportDownloadUrl _ => true
  | Call.fetch _ => true
  | Call.csvToJson _ => true
  | _ => false

/-- Whether a call writes to the cache store (set or delete). -/
def Call.isCacheWrite : Call → Bool
  | Call.redisSetex _ _ _ => true
  | Call.redisDel _ => true
  | _ => false

/-- The world after `n` more status checks for job `j`. -/
def afterChecks (j n : Nat) (w : World) : World :=
  { w with polls := w.polls + n, log := w.log ++ List.replicate n (Call.getReportJobStatus j) }

/-- The calls a request has issued when polling starts: cache read, customer lookup,
line-item lookup and job submission. -/
def callsBeforePoll (env : Env) (campaign : Campaign) (gamAdvertiserIds lineItemIds : List String)
    (now : Nat) : List Call :=
  [Call.redisGet (cacheKey campaign.id),
   Call.customerLoad campaign.customerId,
   Call.gamLoadMany campaign.startDate campaign.endDate gamAdvertiserIds 500,
   Call.runReportJob
     (env.formatDate (campaign.startDate.getD (env.subtractFiveYears now)))
     (env.formatDate (if campaign.endDate.getD now > now then now else campaign.endDate.getD now))
     ("WHERE LINE_ITEM_ID IN (" ++ ",".intercalate lineItemIds ++ ")")]

/-- The world in which a request starts polling. -/
def worldBeforePoll (env : Env) (campaign : Campaign) (gamAdvertiserIds lineItemIds : List String)
    (w : World) : World :=
  { w with log := w.log ++ callsBeforePoll env campaign gamAdvertiserIds lineItemIds w.now }

/-- The world a request leaves after a successful polling loop ended in `w2`, the
download of `url` gave `body` and the decoder gave `rows`: three more calls, then the
cache write of the decoded rows. -/
def worldAfterReport (campaign : Campaign) (j : Nat) (url body : String) (rows : List ReportRow)
    (w2 : World) : World :=
  { w2 with
    log := w2.log ++ [Call.getReportDownloadUrl j, Call.fetch url, Call.csvToJson body,
      Call.redisSetex (cacheKey campaign.id) 3600 (JSON.stringify rows)],
    store := (cacheKey campaign.id, ⟨JSON.stringify rows, w2.now + 3600⟩)
      :: w2.store.filter (fun kv => kv.1 != cacheKey campaign.id) }

/-! ## A concrete scenario -/

/-- Status answers read from a finite script; the script has no answer past its end. -/
def scripted (statuses : List String) (k : Nat) : Except String String :=
  match statuses.get? k with
  | some status => Except.ok status
  | none => Except.error "no further answer scripted"

/-- The three decoded rows of the scenario, for line items `L1`, `L9`, `L2`. -/
def scenarioRows : List ReportRow := [rowFor "L1", rowFor "L9", rowFor "L2"]

/-- Collaborators of the scenario: advertiser `A1`, job `1`, the given status script, a
download that decodes to `scenarioRows`, no store failure. -/
def scenarioEnv (statuses : List String) : Env where
  redisGetError := none
  redisSetexError := none
  redisDelError := none
  customer := fun _ => Except.ok (some ["A1"])
  lineItems := Except.ok ["L1", "L9", "L2"]
  reportJob := Except.ok 1
  statusAt := scripted statuses
  downloadUrl := Except.ok "https://reports.example/1.csv"
  download := fun _ => Except.ok "csv"
  decode := fun _ => Except.ok scenarioRows
  authCheck := Except.ok ()
  persistError := none
  subtractFiveYears := fun t => t - 157766400
  formatDate := fun t =>
    if t = 1704088800 then "2024-01-01" else if t = 1706767199 then "2024-01-31" else "2024-02-15"

/-- Campaign `C1` of the scenario with the given exclusion list; its window is
2024-01-01 to 2024-01-31. -/
def scenarioCampaign (excludedIds : List String) : Campaign where
  id := "C1"
  customerId := "K1"
  deleted := false
  startDate := some 1704088800
  endDate := some 1706767199
  excludedGAMLineItemIds := excludedIds

/-- The world of the scenario before the first request: an empty cache. -/
def scenarioWorld : World where
  now := 1708000000
  store := []
  polls := 0
  campaigns := [scenarioCampaign ["L9"]]
  log := []

/-- Whether a call retrieves or decodes a finished report: the download-URL query, the
HTTP download, the CSV decoding. -/
def Call.isDownload : Call → Bool
  | Call.getReportDownloadUrl _ => true
  | Call.fetch _ => true
  | Call.csvToJson _ => true
  | _ => false

/-- The world the first request of the scenario leaves: all three rows cached. -/
def cachedWorld : World :=
  worldAfterReport (scenarioCampaign ["L9"]) 1 "https://reports.example/1.csv" "csv" scenarioRows
    (afterChecks 1 2
      (worldBeforePoll (scenarioEnv ["IN_PROGRESS", "COMPLETED"]) (scenarioCampaign ["L9"])
        ["A1"] ["L1", "L9", "L2"] scenarioWorld))

/-- The status script of the scenario over two pipeline runs. -/
def twoRuns : List String := ["IN_PROGRESS", "COMPLETED", "IN_PROGRESS", "COMPLETED"]

/-- The world a successful exclusion mutation leaves: the document replaced, the
campaign's cache entry deleted, four calls logged. -/
def worldAfterMutation (c : Campaign) (excludedIds : List String) (w : World) : World :=
  { w with
    campaigns := w.campaigns.map
      (fun x => if x.id = c.id then { c with excludedGAMLineItemIds := excludedIds } else x),
    store := w.store.filter (fun kv => kv.1 != cacheKey c.id),
    log := w.log ++ [Call.authCheck, Call.campaignFindOne c.id, Call.campaignPersist c.id,
      Call.redisDel (cacheKey c.id)] }

/-- Whether a call submits a report job to the reporting API. -/
def Call.isSubmission : Call → Bool
  | Call.runReportJob _ _ _ => true
  | _ => false

/-- Whether a call, when it is a cache-store call, addresses the given key. -/
def Call.onKey (key : String) : Call → Bool
  | Call.redisGet k => k == key
  | Call.redisSetex k _ _ => k == key
  | Call.redisDel k => k == key
  | _ => true

/-- A computation keeps to a key when every run of it that returns has only appended
calls to the log, and every cache-store call among them addresses that key. -/
def KeepsToKey (key : String) {α : Type} (m : Async α) : Prop :=
  ∀ w out w1, m w = some (out, w1) →
    ∃ calls, w1.log = w.log ++ calls ∧ ∀ c, c ∈ calls → Call.onKey key c = true

/-! ## The video report and its exclusion mutation -/

/-- The resolver `Campaign.brightcoveVideoReport` (lines 214 to 251). Line 216 reads the
exclusion list from `adMetrics.excludedGAMLineItemIds`. -/
def brightcoveVideoReport (env : Env) (campaign : Campaign) : Async VideoConnection :=
  let excludedIds := campaign.excludedGAMLineItemIds
  andThen (call (Call.customerLoad campaign.customerId)
    (env.customerVideoIds campaign.customerId)) fun brightcoveVideoIds =>
  let emptyResponse : VideoConnection := ⟨0, [], false, false⟩
  match brightcoveVideoIds with
  | none => ret emptyResponse
  | some [] => ret emptyResponse
  | some (v :: vs) =>
    let videoIds := (v :: vs).filter (fun id => !(excludedIds.contains id))
    if videoIds.length = 0 then ret emptyResponse
    else
      andThen getNow fun now =>
      let start := campaign.startDate.getD (env.subtractFiveYears now)
      let finish := campaign.endDate.getD now
      call (Call.getBrightcoveReport videoIds start (if finish > now then now else finish))
        (env.videoReport videoIds start (if finish > now then now else finish))

/-- The resolver `Mutation.videoMetricsExcludedBrightcoveVideoIds` (lines 619 to 626). -/
def videoMetricsExcludedBrightcoveVideoIds (env : Env) (id : String)
    (excludedIds : List String) : Async Campaign :=
  andThen (call Call.authCheck env.authCheck) fun _ =>
  andThen (Campaign.findOne id) fun found =>
  match found with
  | none => throw ("No campaign record found for ID " ++ id ++ ".")
  | some campaign =>
    Campaign.save env { campaign with excludedBrightcoveVideoIds := excludedIds }

/-! ## The time window of the report query -/

/-- The start of the window (line 160): `startDate || moment().subtract(5, 'years')`. -/
def windowStart (env : Env) (campaign : Campaign) (now : Nat) : Nat :=
  campaign.startDate.getD (env.subtractFiveYears now)

/-- The end of the window (lines 161 and 165): `end > now ? now : end` with
`end = endDate || now`. -/
def windowEnd (campaign : Campaign) (now : Nat) : Nat :=
  if campaign.endDate.getD now > now then now else campaign.endDate.getD now

/-! ## Specification vocabulary for whole requests -/

/-- What a report request for a campaign may issue at clock reading `now`: cache reads
of the campaign key, cache writes of the campaign key for 3600 seconds, the lookup of
the campaign's customer, job submissions dated by the campaign's window, and the other
calls of the pipeline; no delete and no call of the mutation path. -/
def Call.byReport (env : Env) (campaign : Campaign) (now : Nat) : Call → Bool
  | Call.redisGet k => k == cacheKey campaign.id
  | Call.redisSetex k seconds _ => k == cacheKey campaign.id && seconds == 3600
  | Call.customerLoad id => id == campaign.customerId
  | Call.runReportJob startDate endDate _ =>
    startDate == env.formatDate (windowStart env campaign now)
      && endDate == env.formatDate (windowEnd campaign now)
  | Call.gamLoadMany _ _ _ _ => true
  | Call.getReportJobStatus _ => true
  | Call.getReportDownloadUrl _ => true
  | Call.fetch _ => true
  | Call.csvToJson _ => true
  | _ => false

/-- A computation is confined to a set of calls at a clock reading when every run of it
that starts at that reading and returns has left the clock alone and has only appended
calls of that set to the log. -/
def Confined (now : Nat) (allowed : Call → Bool) {α : Type} (m : Async α) : Prop :=
  ∀ w out w1, w.now = now → m w = some (out, w1) →
    w1.now = now ∧ ∃ calls, w1.log = w.log ++ calls ∧ ∀ c, c ∈ calls → allowed c = true

/-- A request aborts with an error when it returns that error and no rows, the store is
as it was, and it has issued no cache write. -/
def AbortsWith (env : Env) (fuel : Nat) (campaign : Campaign) (w : World) (e : String) : Prop :=
  ∃ w1, gamLineItemReport env fuel campaign w = some (Except.error e, w1)
    ∧ w1.store = w.store
    ∧ w1.log.filter Call.isCacheWrite = w.log.filter Call.isCacheWrite

/-- The world a request leaves after it cached the empty result: the calls it made up to
the write, then the write. -/
def worldAfterEmptyResult (campaign : Campaign) (calls : List Call) (w : World) : World :=
  { w with
    log := w.log ++ calls ++ [Call.redisSetex (cacheKey campaign.id) 3600 (JSON.stringify [])],
    store := (cacheKey campaign.id, ⟨JSON.stringify [], w.now + 3600⟩)
      :: w.store.filter (fun kv => kv.1 != cacheKey campaign.id) }

/-- The number of store entries under a key. -/
def entriesUnder (key : String) (store : List (String × CacheEntry)) : Nat :=
  (store.filter (fun kv => kv.1 == key)).length

/-! ## Further scenarios -/

/-- A reporting API whose job never leaves `IN_PROGRESS`. -/
def stalledEnv : Env := { scenarioEnv [] with statusAt := fun _ => Except.ok "IN_PROGRESS" }

/-- The scenario with a store whose read is rejected. -/
def readOutageEnv : Env :=
  { scenarioEnv ["IN_PROGRESS", "COMPLETED"] with redisGetError := some "Connection is closed." }

/-- The scenario with a store whose write is rejected. -/
def writeOutageEnv : Env :=
  { scenarioEnv ["IN_PROGRESS", "COMPLETED"] with redisSetexError := some "Connection is closed." }

/-- The scenario with a store whose delete is rejected. -/
def deleteOutageEnv : Env :=
  { scenarioEnv [] with redisDelError := some "Connection is closed." }

/-- The scenario with a download that the decoder rejects. -/
def malformedEnv : Env :=
  { scenarioEnv ["IN_PROGRESS", "COMPLETED"] with
    decode := fun _ => Except.error "CSV parse error: unclosed quote" }

/-- The scenario world with text under the campaign key that is not JSON. -/
def corruptWorld : World :=
  { scenarioWorld with
    store := [(cacheKey "C1", ⟨Payload.garbage "[unterminated", 1708003600⟩)] }

/-- A customer with the two videos `V1` and `V2`. -/
def videoEnv : Env :=
  { scenarioEnv [] with customerVideoIds := fun _ => Except.ok (some ["V1", "V2"]) }

/-! ## Helpers of the campaign resolvers -/

/-- An entry of `services/identity-attributes.js`; a missing `adminOnly` is falsy. -/
structure IdentityAttribute where
  key : String
  label : String
  adminOnly : Bool := false
  deriving DecidableEq, Repr

/-- The exported list of `services/identity-attributes.js` (lines 1 to 16). -/
def identityAttributes : List IdentityAttribute :=
  [ { key := "emailAddress", label := "Email" },
    { key := "givenName", label := "First Name" },
    { key := "familyName", label := "Last Name" },
    { key := "title", label := "Title" },
    { key := "companyName", label := "Company Name" },
    { key := "street", label := "Address" },
    { key := "city", label := "City" },
    { key := "region", label := "State" },
    { key := "postalCode", label := "Postal Code" },
    { key := "country", label := "Country" },
    { key := "phoneNumber", label := "Phone #", adminOnly := true },
    { key := "attributes.Industry", label := "Industry" },
    { key := "attributes.Job Function", label := "Job Function" } ]

/-- The expression `[...new Set(fields)]`: the values are inserted one after the other,
a value already in the set is skipped, and the spread lists them in insertion order. -/
def newSet (fields : List String) : List String :=
  fields.foldl (fun inserted f => if inserted.contains f then inserted else inserted ++ [f]) []

/-- The function `handleExcludedFields` (lines 48 to 58). `excludeFields` is `none` when
the argument is not an array; `isAdmin` is the answer of `auth.isAdmin()`. -/
def handleExcludedFields (excludeFields : Option (List String)) (isAdmin : Bool) :
    List String :=
  let fields : List String := []
  let fields :=
    match excludeFields with
    | some requested => fields ++ requested
    | none => fields
  let fields :=
    if !isAdmin then
      let toRestrict := (identityAttributes.filter (fun f => f.adminOnly)).map (fun f => f.key)
      fields ++ toRestrict
    else fields
  newSet fields

/-- Stated from the claim: a list with its duplicates removed, in first-occurrence
order. Each value stays at its first position and its later copies are dropped. -/
def firstOccurrences : List String → List String
  | [] => []
  | a :: rest => a :: (firstOccurrences rest).filter (fun x => x != a)

/-- The test `!max` on a number or a missing value: missing and zero are falsy. -/
def notMax (max : Option ℚ) : Bool :=
  match max with
  | none => true
  | some m => decide (m = 0)

/-- The comparison `max < bound`; a missing `max` compares false. -/
def maxBelow (max : Option ℚ) (bound : ℚ) : Bool :=
  match max with
  | none => false
  | some m => decide (m < bound)

/-- The comparison `max > bound`; a missing `max` compares false. -/
def maxAbove (max : Option ℚ) (bound : ℚ) : Bool :=
  match max with
  | none => false
  | some m => decide (m > bound)

/-- The function `calcMax` (lines 24 to 28). `max` is a finite number or missing
(`none`); `isAdmin` is the answer of `auth.isAdmin()`. -/
def calcMax (isAdmin : Bool) (max : Option ℚ) : Option ℚ :=
  if !isAdmin && (notMax max || maxBelow max 1 || maxAbove max 200) then some 200
  else if isAdmin && (notMax max || maxBelow max 0) then some 0
  else max

/-- An entry of `email.excludeUrls` (`excludeUrlSchema`): a URL id and a send id. -/
structure ExcludeUrl where
  urlId : String
  sendId : String
  deriving DecidableEq, Repr

/-- The email part of a campaign document as the resolver sees it. `excludeUrls` is
`none` when the field is not an array. -/
structure EmailCampaignDoc where
  id : String
  excludeUrls : Option (List ExcludeUrl)
  deriving DecidableEq, Repr

/-- What a resolver hands to GraphQL: an array of entries, or a document. -/
inductive ResolverValue where
  | array (entries : List ExcludeUrl)
  | document (emailCampaign : EmailCampaignDoc)
  deriving DecidableEq, Repr

/-- The resolver `EmailCampaign.excludeUrls` (lines 351 to 354): line 353 returns
`emailCampaign`. -/
def EmailCampaign.excludeUrls (emailCampaign : EmailCampaignDoc) : ResolverValue :=
  match emailCampaign.excludeUrls with
  | none => ResolverValue.array []
  | some _ => ResolverValue.document emailCampaign

/-! ## A model of the date library -/

/-- A calendar date: year, month (1 to 12) and day of the month. -/
structure CivilDate where
  year : Nat
  month : Nat
  day : Nat
  deriving DecidableEq, Repr

/-- The number `YYYYMMDD` of a date: dates are ordered as their keys. -/
def CivilDate.key (c : CivilDate) : Nat := c.year * 10000 + c.month * 100 + c.day

/-- The Gregorian leap-year rule. -/
def isLeapYear (y : Nat) : Bool := (y % 4 == 0 && y % 100 != 0) || y % 400 == 0

/-- The length of a month. -/
def daysInMonth (y m : Nat) : Nat :=
  if m = 2 then (if isLeapYear y then 29 else 28)
  else if m = 4 ∨ m = 6 ∨ m = 9 ∨ m = 11 then 30
  else 31

/-- The length of a year. -/
def daysInYear (y : Nat) : Nat := if isLeapYear y then 366 else 365

/-- The date within year `y` that lies `r` days after the first of month `m`, found by
walking over whole months; the first argument bounds the months walked. -/
def monthLoop (y : Nat) : Nat → Nat → Nat → CivilDate
  | 0, m, r => ⟨y, m, r + 1⟩
  | f + 1, m, r =>
    if r < daysInMonth y m then ⟨y, m, r + 1⟩
    else monthLoop y f (m + 1) (r - daysInMonth y m)

/-- The date that lies `r` days after the first of January of year `y`, found by walking
over whole years; the first argument bounds the years walked. -/
def yearLoop : Nat → Nat → Nat → CivilDate
  | 0, y, r => monthLoop y 11 1 r
  | f + 1, y, r =>
    if r < daysInYear y then monthLoop y 11 1 r
    else yearLoop f (y + 1) (r - daysInYear y)

/-- The calendar date of a day counted from 1970-01-01 as day 0. -/
def civilOfDay (d : Nat) : CivilDate := yearLoop d 1970 d

/-- The calendar date of an instant (seconds since 1970-01-01T00:00Z) on the clock of a
zone that is `utcOffset` seconds ahead of UTC. -/
def Moment.localDate (utcOffset : Int) (t : Nat) : CivilDate :=
  civilOfDay (((t : Int) + utcOffset).toNat / 86400)

/-- The last two decimal digits of a number. -/
def Moment.twoDigits (n : Nat) : List Char := [Nat.digitChar (n / 10 % 10), Nat.digitChar (n % 10)]

/-- The text `YYYY-MM-DD` of a date. -/
def Moment.formatYMD (c : CivilDate) : String :=
  String.mk (Moment.twoDigits (c.year / 100) ++ Moment.twoDigits c.year ++ ['-']
    ++ Moment.twoDigits c.month ++ ['-'] ++ Moment.twoDigits c.day)

/-- A model of the library call `moment(d).format('YYYY-MM-DD')` for an instant `d`, on a
server whose zone is `utcOffset` seconds ahead of UTC. -/
def Moment.format (utcOffset : Int) (t : Nat) : String :=
  Moment.formatYMD (Moment.localDate utcOffset t)

/-- The same month and day `n` years earlier; the day is cut to the length of the month
(29 February becomes 28 February). -/
def CivilDate.minusYears (c : CivilDate) (n : Nat) : CivilDate :=
  ⟨c.year - n, c.month, min c.day (daysInMonth (c.year - n) c.month)⟩

/-- The day number of a calendar date, counted from 1970-01-01 as day 0. -/
def dayOfCivil (c : CivilDate) : Nat :=
  ((List.range (c.year - 1970)).map (fun k => daysInYear (1970 + k))).sum
    + ((List.range (c.month - 1)).map (fun k => daysInMonth c.year (k + 1))).sum
    + (c.day - 1)

/-- A model of the library call `moment().subtract(n, 'years')` at instant `t`: the
instant with the same local time of day on the calendar date `n` years earlier. -/
def Moment.subtractYears (n : Nat) (utcOffset : Int) (t : Nat) : Nat :=
  let seconds := ((t : Int) + utcOffset).toNat
  let earlier := (civilOfDay (seconds / 86400)).minusYears n
  (((dayOfCivil earlier * 86400 + seconds % 86400 : Nat) : Int) - utcOffset).toNat

/-- The scenario on a server in the zone six hours behind UTC, with the date library
modelled by `Moment.format` and `Moment.subtractYears`. -/
def calendarEnv : Env :=
  { scenarioEnv ["IN_PROGRESS", "COMPLETED"] with
    formatDate := Moment.format (-21600)
    subtractFiveYears := Moment.subtractYears 5 (-21600) }

/-- A campaign without a start date whose end date lies after the scenario's clock. -/
def openCampaign : Campaign :=
  { scenarioCampaign [] with startDate := none, endDate := some 1800000000 }

/-! ## Facts about the filter -/

theorem includes_eq_true_iff (excludedIds : List String) (row : ReportRow) :
    includes excludedIds (lineItemIdOf row) = true ↔ Excluded excludedIds row := by
  unfold includes Excluded
  cases h : lineItemIdOf row with
  | none => simp
  | some id => simp

theorem mem_filterResponse (excludedIds : List String) (rows : List ReportRow)
    (row : ReportRow) :
    row ∈ filterResponse excludedIds rows ↔ row ∈ rows ∧ ¬ Excluded excludedIds row := by
  unfold filterResponse
  rw [List.mem_filter, ← includes_eq_true_iff]
  simp

/-! ## Facts about the polling loop -/

theorem poll_zero_fuel (env : Env) (j : Nat) (w : World) :
    pollReportStatus env j 0 w = none := rfl

theorem poll_step_inProgress (env : Env) (j fuel : Nat) (w : World)
    (h : env.statusAt w.polls = Except.ok "IN_PROGRESS") :
    pollReportStatus env j (fuel + 1) w
      = pollReportStatus env j fuel (afterChecks j 1 w) := by
  simp [pollReportStatus, h, afterChecks]

theorem poll_step_completed (env : Env) (j fuel : Nat) (w : World)
    (h : env.statusAt w.polls = Except.ok "COMPLETED") :
    pollReportStatus env j (fuel + 1) w = some (Except.ok true, afterChecks j 1 w) := by
  simp [pollReportStatus, h, afterChecks]

theorem poll_step_failed (env : Env) (j fuel : Nat) (w : World)
    (h : env.statusAt w.polls = Except.ok "FAILED") :
    pollReportStatus env j (fuel + 1) w
      = some (Except.error "Report creation failed!", afterChecks j 1 w) := by
  simp [pollReportStatus, h, afterChecks]

theorem poll_step_unknown (env : Env) (j fuel : Nat) (w : World) (status : String)
    (h : env.statusAt w.polls = Except.ok status)
    (h1 : status ≠ "IN_PROGRESS") (h2 : status ≠ "COMPLETED") (h3 : status ≠ "FAILED") :
    pollReportStatus env j (fuel + 1) w
      = some (Except.error ("Unknown report status encountered: '" ++ status ++ "'"),
          afterChecks j 1 w) := by
  simp [pollReportStatus, h, afterChecks, h1, h2, h3]

theorem afterChecks_afterChecks (j m n : Nat) (w : World) :
    afterChecks j n (afterChecks j m w) = afterChecks j (m + n) w := by
  unfold afterChecks
  simp only [List.append_assoc, Nat.add_assoc, List.replicate_add]

/-- Skipping a run of `n` answers `IN_PROGRESS` costs `n` units of fuel and `n` checks. -/
theorem poll_skip_inProgress (env : Env) (j : Nat) :
    ∀ (n fuel : Nat) (w : World),
      (∀ i, i < n → env.statusAt (w.polls + i) = Except.ok "IN_PROGRESS") →
      pollReportStatus env j (n + fuel) w = pollReportStatus env j fuel (afterChecks j n w) := by
  intro n
  induction n with
  | zero =>
    intro fuel w _
    simp [afterChecks]
  | succ n ih =>
    intro fuel w h
    have h0 : env.statusAt w.polls = Except.ok "IN_PROGRESS" := by
      simpa using h 0 (Nat.succ_pos n)
    have hrest : ∀ i, i < n →
        env.statusAt ((afterChecks j 1 w).polls + i) = Except.ok "IN_PROGRESS" := by
      intro i hi
      have := h (i + 1) (Nat.succ_lt_succ hi)
      simpa [afterChecks, Nat.add_comm, Nat.add_left_comm] using this
    have e : n + 1 + fuel = (n + fuel) + 1 := by omega
    rw [e, poll_step_inProgress env j (n + fuel) w h0, ih fuel (afterChecks j 1 w) hrest,
      afterChecks_afterChecks]
    congr 2
    omega

theorem statusChecks_append (l1 l2 : List Call) :
    statusChecks (l1 ++ l2) = statusChecks l1 + statusChecks l2 := by
  simp [statusChecks]

theorem statusChecks_replicate (j n : Nat) :
    statusChecks (List.replicate n (Call.getReportJobStatus j)) = n := by
  simp [statusChecks, List.filter_replicate]

theorem statusChecks_afterChecks (j n : Nat) (w : World) :
    statusChecks (afterChecks j n w).log = statusChecks w.log + n := by
  simp [afterChecks, statusChecks_append, statusChecks_replicate]

/-- A run of `n` answers `IN_PROGRESS` followed by `COMPLETED` ends the loop with `true`
after `n + 1` checks, given more than `n` units of fuel. -/
theorem poll_completes (env : Env) (j n fuel : Nat) (w : World)
    (hprog : ∀ i, i < n → env.statusAt (w.polls + i) = Except.ok "IN_PROGRESS")
    (hdone : env.statusAt (w.polls + n) = Except.ok "COMPLETED")
    (hfuel : n < fuel) :
    pollReportStatus env j fuel w = some (Except.ok true, afterChecks j (n + 1) w) := by
  obtain ⟨m, rfl⟩ : ∃ m, fuel = n + (m + 1) := ⟨fuel - n - 1, by omega⟩
  rw [poll_skip_inProgress env j n (m + 1) w hprog,
    poll_step_completed env j m (afterChecks j n w) (by simpa [afterChecks] using hdone),
    afterChecks_afterChecks]

/-- A run of `n` answers `IN_PROGRESS` followed by `FAILED` ends the loop with the
failure error after `n + 1` checks. -/
theorem poll_fails (env : Env) (j n fuel : Nat) (w : World)
    (hprog : ∀ i, i < n → env.statusAt (w.polls + i) = Except.ok "IN_PROGRESS")
    (hfail : env.statusAt (w.polls + n) = Except.ok "FAILED")
    (hfuel : n < fuel) :
    pollReportStatus env j fuel w
      = some (Except.error "Report creation failed!", afterChecks j (n + 1) w) := by
  obtain ⟨m, rfl⟩ : ∃ m, fuel = n + (m + 1) := ⟨fuel - n - 1, by omega⟩
  rw [poll_skip_inProgress env j n (m + 1) w hprog,
    poll_step_failed env j m (afterChecks j n w) (by simpa [afterChecks] using hfail),
    afterChecks_afterChecks]

/-- A run of `n` answers `IN_PROGRESS` followed by a status outside the three handled
ones ends the loop with the unknown-status error after `n + 1` checks. -/
theorem poll_unknown (env : Env) (j n fuel : Nat) (w : World) (status : String)
    (hprog : ∀ i, i < n → env.statusAt (w.polls + i) = Except.ok "IN_PROGRESS")
    (hst : env.statusAt (w.polls + n) = Except.ok status)
    (h1 : status ≠ "IN_PROGRESS") (h2 : status ≠ "COMPLETED") (h3 : status ≠ "FAILED")
    (hfuel : n < fuel) :
    pollReportStatus env j fuel w
      = some (Except.error ("Unknown report status encountered: '" ++ status ++ "'"),
          afterChecks j (n + 1) w) := by
  obtain ⟨m, rfl⟩ : ∃ m, fuel = n + (m + 1) := ⟨fuel - n - 1, by omega⟩
  rw [poll_skip_inProgress env j n (m + 1) w hprog,
    poll_step_unknown env j m (afterChecks j n w) status (by simpa [afterChecks] using hst)
      h1 h2 h3,
    afterChecks_afterChecks]

/-- While the answers are `IN_PROGRESS` the loop has not returned: fuel for at most `n`
checks is used up by a run of `n` such answers. -/
theorem poll_starved (env : Env) (j n fuel : Nat) (w : World)
    (hprog : ∀ i, i < n → env.statusAt (w.polls + i) = Except.ok "IN_PROGRESS")
    (hfuel : fuel ≤ n) :
    pollReportStatus env j fuel w = none := by
  have h := poll_skip_inProgress env j fuel 0 w (fun i hi => hprog i (Nat.lt_of_lt_of_le hi hfuel))
  rw [Nat.add_zero] at h
  rw [h, poll_zero_fuel]

/-! ## Facts about the resolver -/

/-- A request that misses the cache, finds advertiser ids and line items and submits a
job fails with the error of the polling loop when that loop fails. -/
theorem report_poll_error (env : Env) (fuel : Nat) (c : Campaign) (w w2 : World)
    (ids nodes : List String) (j : Nat) (e : String)
    (hget : env.redisGetError = none)
    (hmiss : truthy (liveValue w (cacheKey c.id)) = false)
    (hcust : env.customer c.customerId = Except.ok (some ids)) (hids : ids ≠ [])
    (hnodes : env.lineItems = Except.ok nodes) (hn : nodes ≠ [])
    (hjob : env.reportJob = Except.ok j)
    (hpoll : pollReportStatus env j fuel (worldBeforePoll env c ids nodes w)
      = some (Except.error e, w2)) :
    gamLineItemReport env fuel c w = some (Except.error e, w2) := by
  cases ids with
  | nil => exact absurd rfl hids
  | cons a as =>
    unfold worldBeforePoll callsBeforePoll at hpoll
    cases hv : liveValue w (cacheKey c.id) with
    | none =>
      simp [gamLineItemReport, reportPipeline, andThen, redis.getAsync, call, getNow, hget, hv, truthy, hcust,
        hnodes, hn, hjob]
      simp at hpoll
      rw [hpoll]
    | some text =>
      rw [hv] at hmiss
      cases text with
      | json rows => simp [truthy] at hmiss
      | garbage raw => simp [truthy] at hmiss
      | blank =>
        simp [gamLineItemReport, reportPipeline, andThen, redis.getAsync, call, getNow, hget, hv, truthy, hcust,
          hnodes, hn, hjob]
        simp at hpoll
        rw [hpoll]

/-- A request whose polling loop succeeds downloads, decodes, caches the decoded rows
and returns their filtered view. -/
theorem report_poll_ok (env : Env) (fuel : Nat) (c : Campaign) (w w2 : World)
    (ids nodes : List String) (j : Nat) (b : Bool) (url body : String) (rows : List ReportRow)
    (hget : env.redisGetError = none)
    (hmiss : truthy (liveValue w (cacheKey c.id)) = false)
    (hcust : env.customer c.customerId = Except.ok (some ids)) (hids : ids ≠ [])
    (hnodes : env.lineItems = Except.ok nodes) (hn : nodes ≠ [])
    (hjob : env.reportJob = Except.ok j)
    (hpoll : pollReportStatus env j fuel (worldBeforePoll env c ids nodes w)
      = some (Except.ok b, w2))
    (hurl : env.downloadUrl = Except.ok url)
    (hbody : env.download url = Except.ok body)
    (hrows : env.decode body = Except.ok rows)
    (hset : env.redisSetexError = none) :
    gamLineItemReport env fuel c w
      = some (Except.ok (filterResponse c.excludedGAMLineItemIds rows),
          worldAfterReport c j url body rows w2) := by
  cases ids with
  | nil => exact absurd rfl hids
  | cons a as =>
    unfold worldBeforePoll callsBeforePoll at hpoll
    cases hv : liveValue w (cacheKey c.id) with
    | none =>
      simp [gamLineItemReport, reportPipeline, andThen, redis.getAsync, call, getNow, hget, hv, truthy, hcust,
        hnodes, hn, hjob]
      simp at hpoll
      rw [hpoll]
      simp [hurl, hbody, hrows, setToCache, redis.setexAsync, hset, ret, worldAfterReport]
    | some text =>
      rw [hv] at hmiss
      cases text with
      | json rows => simp [truthy] at hmiss
      | garbage raw => simp [truthy] at hmiss
      | blank =>
        simp [gamLineItemReport, reportPipeline, andThen, redis.getAsync, call, getNow, hget, hv, truthy, hcust,
          hnodes, hn, hjob]
        simp at hpoll
        rw [hpoll]
        simp [hurl, hbody, hrows, setToCache, redis.setexAsync, hset, ret, worldAfterReport]

theorem liveValue_worldAfterReport (c : Campaign) (j : Nat) (url body : String)
    (rows : List ReportRow) (w2 : World) :
    liveValue (worldAfterReport c j url body rows w2) (cacheKey c.id)
      = some (JSON.stringify rows) := by
  simp [liveValue, worldAfterReport, List.lookup]

/-- Two exclusion lists give the same filtered view of some rows exactly when they agree
on the line-item id of every one of the rows. -/
theorem filterResponse_eq_iff (s1 s2 : List String) (rows : List ReportRow) :
    filterResponse s1 rows = filterResponse s2 rows
      ↔ ∀ row, row ∈ rows →
          includes s1 (lineItemIdOf row) = includes s2 (lineItemIdOf row) := by
  constructor
  · intro h row hrow
    have h1 := mem_filterResponse s1 rows row
    have h2 := mem_filterResponse s2 rows row
    rw [h] at h1
    have hiff : Excluded s1 row ↔ Excluded s2 row := by
      constructor
      · intro hx
        by_contra hn
        exact (h1.1 (h2.2 ⟨hrow, hn⟩)).2 hx
      · intro hx
        by_contra hn
        exact (h2.1 (h1.2 ⟨hrow, hn⟩)).2 hx
    rw [← includes_eq_true_iff, ← includes_eq_true_iff] at hiff
    cases ha : includes s1 (lineItemIdOf row) <;> cases hb : includes s2 (lineItemIdOf row)
      <;> simp_all
  · intro h
    unfold filterResponse
    apply List.filter_congr
    intro row hrow
    rw [h row hrow]

/-- A request that finds a live serialised report under the campaign key returns its
filtered view after the cache read alone. -/
theorem report_hit (env : Env) (fuel : Nat) (c : Campaign) (w : World) (rows : List ReportRow)
    (hget : env.redisGetError = none)
    (hhit : liveValue w (cacheKey c.id) = some (JSON.stringify rows)) :
    gamLineItemReport env fuel c w
      = some (Except.ok (filterResponse c.excludedGAMLineItemIds rows),
          { w with log := w.log ++ [Call.redisGet (cacheKey c.id)] }) := by
  simp [gamLineItemReport, andThen, redis.getAsync, hget, hhit, truthy, JSON.stringify,
    JSON.parse, ret]

theorem liveValue_log (w : World) (calls : List Call) (key : String) :
    liveValue { w with log := calls } key = liveValue w key := rfl

/-! ## Which cache key a request touches -/

theorem andThen_some {α β : Type} (m : Async α) (k : α → Async β) (w w1 : World)
    (out : Except String β) (h : andThen m k w = some (out, w1)) :
    (∃ e, m w = some (Except.error e, w1) ∧ out = Except.error e)
      ∨ ∃ a w2, m w = some (Except.ok a, w2) ∧ k a w2 = some (out, w1) := by
  unfold andThen at h
  cases hm : m w with
  | none => simp [hm] at h
  | some r =>
    obtain ⟨res, w2⟩ := r
    cases res with
    | error e =>
      simp [hm] at h
      exact Or.inl ⟨e, by rw [h.2], h.1.symm⟩
    | ok a =>
      simp [hm] at h
      exact Or.inr ⟨a, w2, rfl, h⟩

theorem keeps_andThen {α β : Type} (key : String) (m : Async α) (k : α → Async β)
    (hm : KeepsToKey key m) (hk : ∀ a, KeepsToKey key (k a)) :
    KeepsToKey key (andThen m k) := by
  intro w out w1 h
  rcases andThen_some m k w w1 out h with ⟨e, he, _⟩ | ⟨a, w2, ha, hka⟩
  · exact hm w _ w1 he
  · obtain ⟨c1, h1, hc1⟩ := hm w _ w2 ha
    obtain ⟨c2, h2, hc2⟩ := hk a w2 out w1 hka
    refine ⟨c1 ++ c2, by rw [h2, h1, List.append_assoc], ?_⟩
    intro c hc
    rcases List.mem_append.mp hc with h | h
    · exact hc1 c h
    · exact hc2 c h

theorem keeps_ret {α : Type} (key : String) (a : α) : KeepsToKey key (ret a) := by
  intro w out w1 h
  simp [ret] at h
  exact ⟨[], by simp [← h.2], by simp⟩

theorem keeps_pure {α : Type} (key : String) (r : Except String α) :
    KeepsToKey key (fun w => some (r, w)) := by
  intro w out w1 h
  simp at h
  exact ⟨[], by simp [← h.2], by simp⟩

theorem keeps_getNow (key : String) : KeepsToKey key getNow := by
  intro w out w1 h
  simp [getNow] at h
  exact ⟨[], by simp [← h.2], by simp⟩

theorem keeps_call {α : Type} (key : String) (c : Call) (answer : Except String α)
    (hc : Call.onKey key c = true) : KeepsToKey key (call c answer) := by
  intro w out w1 h
  simp [call] at h
  exact ⟨[c], by simp [← h.2], by simpa using hc⟩

theorem keeps_getAsync (env : Env) (key : String) : KeepsToKey key (redis.getAsync env key) := by
  intro w out w1 h
  refine ⟨[Call.redisGet key], ?_, by simp [Call.onKey]⟩
  unfold redis.getAsync at h
  cases hg : env.redisGetError <;> simp [hg] at h <;> simp [← h.2]

theorem keeps_setToCache (env : Env) (key : String) (result : List ReportRow) :
    KeepsToKey key (setToCache env key result) := by
  intro w out w1 h
  refine ⟨[Call.redisSetex key 3600 (JSON.stringify result)], ?_, by simp [Call.onKey]⟩
  unfold setToCache redis.setexAsync at h
  cases hg : env.redisSetexError <;> simp [hg] at h <;> simp [← h.2]

theorem keeps_poll (env : Env) (key : String) (j : Nat) :
    ∀ fuel, KeepsToKey key (pollReportStatus env j fuel) := by
  intro fuel
  induction fuel with
  | zero =>
    intro w out w1 h
    simp [pollReportStatus] at h
  | succ fuel ih =>
    intro w out w1 h
    unfold pollReportStatus at h
    simp only at h
    cases hs : env.statusAt w.polls with
    | error e =>
      simp [hs] at h
      exact ⟨[Call.getReportJobStatus j], by simp [← h.2], by simp [Call.onKey]⟩
    | ok status =>
      simp only [hs] at h
      by_cases h1 : status = "IN_PROGRESS"
      · simp only [h1, if_true] at h
        obtain ⟨calls, hl, hc⟩ := ih _ out w1 h
        refine ⟨Call.getReportJobStatus j :: calls, by simp [hl], ?_⟩
        intro c hmem
        rcases List.mem_cons.mp hmem with rfl | hmem
        · rfl
        · exact hc c hmem
      · refine ⟨[Call.getReportJobStatus j], ?_, by simp [Call.onKey]⟩
        by_cases h2 : status = "COMPLETED"
        · simp [h1, h2] at h
          simp [← h.2]
        · by_cases h3 : status = "FAILED"
          · simp [h1, h2, h3] at h
            simp [← h.2]
          · simp [h1, h2, h3] at h
            simp [← h.2]

/-- What a request does after a cache miss keeps to the campaign key. -/
theorem keeps_emptyResponse (env : Env) (key : String) :
    KeepsToKey key (andThen (setToCache env key []) fun _ => ret ([] : List ReportRow)) :=
  keeps_andThen key _ _ (keeps_setToCache env key []) (fun _ => keeps_ret key _)

/-- The pipeline after a cache miss keeps to the campaign key. -/
theorem pipeline_keeps_to_key (env : Env) (fuel : Nat) (c : Campaign) :
    KeepsToKey (cacheKey c.id) (reportPipeline env fuel c) := by
  unfold reportPipeline
  apply keeps_andThen _ _ _ (keeps_call _ _ _ (by rfl))
  intro gamAdvertiserIds
  match gamAdvertiserIds with
  | none => exact keeps_emptyResponse env _
  | some [] => exact keeps_emptyResponse env _
  | some (a :: as) =>
    apply keeps_andThen _ _ _ (keeps_call _ _ _ (by rfl))
    intro lineItemIds
    by_cases hl : lineItemIds.length = 0
    · simp only [hl, if_true]
      exact keeps_emptyResponse env _
    · simp only [hl, if_false]
      apply keeps_andThen _ _ _ (keeps_getNow _)
      intro now
      apply keeps_andThen _ _ _ (keeps_call _ _ _ (by rfl))
      intro reportJobId
      apply keeps_andThen _ _ _ (keeps_poll env _ reportJobId fuel)
      intro _
      apply keeps_andThen _ _ _ (keeps_call _ _ _ (by rfl))
      intro downloadUrl
      apply keeps_andThen _ _ _ (keeps_call _ _ _ (by rfl))
      intro body
      apply keeps_andThen _ _ _ (keeps_call _ _ _ (by rfl))
      intro json
      apply keeps_andThen _ _ _ (keeps_setToCache env _ json)
      intro _
      exact keeps_ret _ _

/-- Every run of the resolver that returns has only appended calls, and its cache-store
calls all address the campaign key. -/
theorem report_keeps_to_key (env : Env) (fuel : Nat) (c : Campaign) :
    KeepsToKey (cacheKey c.id) (gamLineItemReport env fuel c) := by
  unfold gamLineItemReport
  apply keeps_andThen _ _ _ (keeps_getAsync env _)
  intro fromCache
  cases fromCache with
  | none => exact pipeline_keeps_to_key env fuel c
  | some text =>
    cases text with
    | blank => exact pipeline_keeps_to_key env fuel c
    | json rows =>
      exact keeps_andThen _ _ _ (keeps_pure _ _) (fun _ => keeps_ret _ _)
    | garbage raw =>
      exact keeps_andThen _ _ _ (keeps_pure _ _) (fun _ => keeps_ret _ _)

/-- A request whose cache read answers nothing usable is the pipeline run after that
read. -/
theorem report_miss (env : Env) (fuel : Nat) (c : Campaign) (w : World)
    (hget : env.redisGetError = none)
    (hmiss : truthy (liveValue w (cacheKey c.id)) = false) :
    gamLineItemReport env fuel c w
      = reportPipeline env fuel c { w with log := w.log ++ [Call.redisGet (cacheKey c.id)] } := by
  cases hv : liveValue w (cacheKey c.id) with
  | none => simp [gamLineItemReport, andThen, redis.getAsync, hget, hv, truthy]
  | some text =>
    rw [hv] at hmiss
    cases text with
    | json rows => simp [truthy] at hmiss
    | garbage raw => simp [truthy] at hmiss
    | blank => simp [gamLineItemReport, andThen, redis.getAsync, hget, hv, truthy]

/-! ## Facts about the store, the save hook and the mutation -/

theorem lookup_filter_ne (store : List (String × CacheEntry)) (key : String) :
    (store.filter (fun kv => kv.1 != key)).lookup key = none := by
  induction store with
  | nil => rfl
  | cons kv rest ih =>
    obtain ⟨k, entry⟩ := kv
    by_cases h : k = key
    · rw [List.filter_cons_of_neg (by simp [h])]
      exact ih
    · have hk : (key == k) = false := by
        simpa using fun h2 : key = k => h h2.symm
      rw [List.filter_cons_of_pos (by simpa using h), List.lookup_cons, hk]
      exact ih

/-- A successful save persists the document and issues the delete of the campaign's
report key; a rejected delete is handed to the error logger and the save still
resolves. -/
theorem save_ok (env : Env) (campaign : Campaign) (w : World)
    (hpersist : env.persistError = none) :
    Campaign.save env campaign w
      = some (Except.ok campaign,
          match env.redisDelError with
          | none =>
            { w with
              campaigns := w.campaigns.map (fun c => if c.id = campaign.id then campaign else c),
              store := w.store.filter (fun kv => kv.1 != cacheKey campaign.id),
              log := w.log ++ [Call.campaignPersist campaign.id,
                Call.redisDel (cacheKey campaign.id)] }
          | some e =>
            { w with
              campaigns := w.campaigns.map (fun c => if c.id = campaign.id then campaign else c),
              log := w.log ++ [Call.campaignPersist campaign.id,
                Call.redisDel (cacheKey campaign.id), Call.noticeError e] }) := by
  cases hd : env.redisDelError <;>
    simp [Campaign.save, andThen, clearReportCache, redis.delAsync, hpersist, hd, ret, cacheKey]

/-- The exclusion mutation on an existing campaign, with every collaborator answering. -/
theorem mutation_ok (env : Env) (id : String) (excludedIds : List String) (w : World)
    (c : Campaign)
    (hauth : env.authCheck = Except.ok ())
    (hfind : w.campaigns.find? (fun x => x.id = id && !x.deleted) = some c)
    (hpersist : env.persistError = none)
    (hdel : env.redisDelError = none) :
    adMetricsExcludedGAMLineItemIds env id excludedIds w
      = some (Except.ok { c with excludedGAMLineItemIds := excludedIds },
          worldAfterMutation c excludedIds w) := by
  have hid : c.id = id := by
    have := List.find?_some hfind
    simp only [Bool.and_eq_true, decide_eq_true_eq] at this
    exact this.1
  simp [adMetricsExcludedGAMLineItemIds, andThen, call, hauth, Campaign.findOne, hfind,
    save_ok, hpersist, hdel, worldAfterMutation, hid]

theorem liveValue_worldAfterMutation (c : Campaign) (excludedIds : List String) (w : World)
    (dt : Nat) :
    liveValue (elapse dt (worldAfterMutation c excludedIds w)) (cacheKey c.id) = none := by
  simp [liveValue, elapse, worldAfterMutation, lookup_filter_ne]

/-- C1: the filter pass keeps exactly the rows whose `Dimension.LINE_ITEM_ID` is not a
member of the exclusion list, in their original order. The result is the input filtered
by a test that passes exactly the rows without an excluded `LINE_ITEM_ID` cell under
`Dimension`; it is a subsequence of the input; every input row that is not excluded is
in the result; no row of the result is excluded; a row for an excluded id is never in
the result, and a row for any other id is in the result exactly when it is in the
input. -/
theorem C1_filterResponse_exact (excludedIds : List String) (rows : List ReportRow) :
    (∃ keep : ReportRow → Bool,
        (∀ row, keep row = true
            ↔ ¬ ∃ cells id, row.lookup "Dimension" = some cells
                ∧ cells.lookup "LINE_ITEM_ID" = some id ∧ id ∈ excludedIds)
          ∧ filterResponse excludedIds rows = rows.filter keep)
      ∧ List.Sublist (filterResponse excludedIds rows) rows
      ∧ (∀ row, row ∈ rows →
          (¬ ∃ cells id, row.lookup "Dimension" = some cells
              ∧ cells.lookup "LINE_ITEM_ID" = some id ∧ id ∈ excludedIds) →
          row ∈ filterResponse excludedIds rows)
      ∧ (∀ row, row ∈ filterResponse excludedIds rows →
          ¬ ∃ cells id, row.lookup "Dimension" = some cells
              ∧ cells.lookup "LINE_ITEM_ID" = some id ∧ id ∈ excludedIds)
      ∧ (∀ id, id ∈ excludedIds → rowFor id ∉ filterResponse excludedIds rows)
      ∧ ∀ id, id ∉ excludedIds →
          (rowFor id ∈ filterResponse excludedIds rows ↔ rowFor id ∈ rows) := by
  have excluded_iff_cells : ∀ row : ReportRow,
      Excluded excludedIds row
        ↔ ∃ cells id, row.lookup "Dimension" = some cells
            ∧ cells.lookup "LINE_ITEM_ID" = some id ∧ id ∈ excludedIds := by
    intro row
    unfold Excluded lineItemIdOf
    constructor
    · rintro ⟨id, hid, hmem⟩
      cases hd : row.lookup "Dimension" with
      | none => simp [hd] at hid
      | some cells =>
        rw [hd] at hid
        exact ⟨cells, id, rfl, hid, hmem⟩
    · rintro ⟨cells, id, hd, hid, hmem⟩
      exact ⟨id, by rw [hd]; exact hid, hmem⟩
  have hsound : ∀ row, row ∈ filterResponse excludedIds rows →
      ¬ ∃ cells id, row.lookup "Dimension" = some cells
          ∧ cells.lookup "LINE_ITEM_ID" = some id ∧ id ∈ excludedIds := by
    intro row hmem
    rw [← excluded_iff_cells]
    exact ((mem_filterResponse excludedIds rows row).1 hmem).2
  have hcomplete : ∀ row, row ∈ rows →
      (¬ ∃ cells id, row.lookup "Dimension" = some cells
          ∧ cells.lookup "LINE_ITEM_ID" = some id ∧ id ∈ excludedIds) →
      row ∈ filterResponse excludedIds rows := by
    intro row hmem hnot
    rw [← excluded_iff_cells] at hnot
    exact (mem_filterResponse excludedIds rows row).2 ⟨hmem, hnot⟩
  refine ⟨⟨fun row => !(includes excludedIds (lineItemIdOf row)), ?_, rfl⟩,
    List.filter_sublist rows, hcomplete, hsound, ?_, ?_⟩
  · intro row
    rw [← excluded_iff_cells, ← includes_eq_true_iff]
    simp
  · intro id hid hmem
    exact hsound (rowFor id) hmem ⟨[("LINE_ITEM_ID", id)], id, rfl, rfl, hid⟩
  · intro id hid
    constructor
    · intro hmem
      exact ((mem_filterResponse excludedIds rows (rowFor id)).1 hmem).1
    · intro hmem
      apply hcomplete (rowFor id) hmem
      rintro ⟨cells, id2, hcells, hid2, hmem2⟩
      have h1 : cells = [("LINE_ITEM_ID", id)] := by
        simpa [rowFor, List.lookup] using hcells.symm
      have h2 : id2 = id := by
        rw [h1] at hid2
        simpa [List.lookup] using hid2.symm
      exact hid (h2 ▸ hmem2)

/-- C1 at the scenario: of the rows for `L1`, `L9`, `L2` the filter with exclusion list
`L9` returns the rows for `L1` and `L2`, in that order, and the row for `L9` is gone. -/
theorem C1_witness :
    filterResponse ["L9"] [rowFor "L1", rowFor "L9", rowFor "L2"] = [rowFor "L1", rowFor "L2"]
      ∧ rowFor "L9" ∉ filterResponse ["L9"] [rowFor "L1", rowFor "L9", rowFor "L2"]
      ∧ (filterResponse ["L9"] [rowFor "L1", rowFor "L9", rowFor "L2"]).length = 2 := by
  have h := C1_filterResponse_exact ["L9"] [rowFor "L1", rowFor "L9", rowFor "L2"]
  refine ⟨?_, h.2.2.2.2.1 "L9" (by decide), by decide⟩
  obtain ⟨keep, hkeep, heq⟩ := h.1
  have k1 : keep (rowFor "L1") = true := by
    rw [hkeep]
    rintro ⟨cells, id, hc, hi, hm⟩
    simp [rowFor, List.lookup] at hc
    subst hc
    simp [List.lookup] at hi
    subst hi
    simp at hm
  have k2 : keep (rowFor "L2") = true := by
    rw [hkeep]
    rintro ⟨cells, id, hc, hi, hm⟩
    simp [rowFor, List.lookup] at hc
    subst hc
    simp [List.lookup] at hi
    subst hi
    simp at hm
  have k9 : keep (rowFor "L9") = false := by
    cases hk : keep (rowFor "L9") with
    | false => rfl
    | true =>
      exact absurd ⟨[("LINE_ITEM_ID", "L9")], "L9", rfl, rfl, by decide⟩ ((hkeep _).1 hk)
  rw [heq]
  simp [List.filter, k1, k2, k9]

/-- C2: filtering twice with the same exclusion list equals filtering once. -/
theorem C2_filterResponse_idempotent (excludedIds : List String) (rows : List ReportRow) :
    filterResponse excludedIds (filterResponse excludedIds rows)
      = filterResponse excludedIds rows := by
  unfold filterResponse
  rw [List.filter_filter]
  apply List.filter_congr
  intro row _
  simp

/-- C3: on a cache miss where the customer has advertiser ids, line items are found, the
job answers `IN_PROGRESS` n times and then `COMPLETED`, and the download decodes to
`rows`, the request returns the filtered view of `rows`; the world it leaves holds the
complete unfiltered `rows` live under the campaign key, written by one `setex` of 3600
seconds that is the last call of the request. -/
theorem C3_miss_caches_unfiltered_returns_filtered (env : Env) (fuel : Nat) (c : Campaign)
    (w : World) (ids nodes : List String) (j n : Nat) (url body : String)
    (rows : List ReportRow)
    (hget : env.redisGetError = none)
    (hmiss : truthy (liveValue w (cacheKey c.id)) = false)
    (hcust : env.customer c.customerId = Except.ok (some ids)) (hids : ids ≠ [])
    (hnodes : env.lineItems = Except.ok nodes) (hn : nodes ≠ [])
    (hjob : env.reportJob = Except.ok j)
    (hprog : ∀ i, i < n → env.statusAt (w.polls + i) = Except.ok "IN_PROGRESS")
    (hdone : env.statusAt (w.polls + n) = Except.ok "COMPLETED")
    (hfuel : n < fuel)
    (hurl : env.downloadUrl = Except.ok url)
    (hbody : env.download url = Except.ok body)
    (hrows : env.decode body = Except.ok rows)
    (hset : env.redisSetexError = none) :
    ∃ w1 : World,
      gamLineItemReport env fuel c w
          = some (Except.ok (filterResponse c.excludedGAMLineItemIds rows), w1)
        ∧ liveValue w1 (cacheKey c.id) = some (JSON.stringify rows)
        ∧ JSON.parse (JSON.stringify rows) = Except.ok rows
        ∧ w1.log = w.log ++ callsBeforePoll env c ids nodes w.now
            ++ List.replicate (n + 1) (Call.getReportJobStatus j)
            ++ [Call.getReportDownloadUrl j, Call.fetch url, Call.csvToJson body,
                Call.redisSetex (cacheKey c.id) 3600 (JSON.stringify rows)] := by
  refine ⟨worldAfterReport c j url body rows
    (afterChecks j (n + 1) (worldBeforePoll env c ids nodes w)), ?_, ?_, rfl, ?_⟩
  · exact report_poll_ok env fuel c w _ ids nodes j true url body rows hget hmiss hcust hids
      hnodes hn hjob
      (poll_completes env j n fuel (worldBeforePoll env c ids nodes w) hprog hdone hfuel)
      hurl hbody hrows hset
  · exact liveValue_worldAfterReport c j url body rows _
  · simp [worldAfterReport, afterChecks, worldBeforePoll]

/-- C3 at the scenario: campaign `C1` with exclusion list `L9`, advertiser `A1`, statuses
`IN_PROGRESS` then `COMPLETED`, rows for `L1`, `L9`, `L2`. The request returns the rows
for `L1` and `L2`, and the cache holds all three rows. -/
theorem C3_witness :
    ∃ w1 : World,
      gamLineItemReport (scenarioEnv ["IN_PROGRESS", "COMPLETED"]) 2 (scenarioCampaign ["L9"])
          scenarioWorld
          = some (Except.ok [rowFor "L1", rowFor "L2"], w1)
        ∧ liveValue w1 (cacheKey "C1")
          = some (JSON.stringify [rowFor "L1", rowFor "L9", rowFor "L2"]) := by
  obtain ⟨w1, h1, h2, _, _⟩ := C3_miss_caches_unfiltered_returns_filtered
    (scenarioEnv ["IN_PROGRESS", "COMPLETED"]) 2 (scenarioCampaign ["L9"]) scenarioWorld
    ["A1"] ["L1", "L9", "L2"] 1 1 "https://reports.example/1.csv" "csv" scenarioRows
    rfl rfl rfl (by decide) rfl (by decide) rfl (by intro i hi; interval_cases i; rfl) rfl
    (by decide) rfl rfl rfl rfl
  exact ⟨w1, h1, h2⟩

/-- C4: when the cache holds a live serialised report under the campaign key, the
request returns the cached rows filtered by the campaign's current exclusion list; the
only call it makes is the cache read and the store, the clock, the poll count and the
campaigns are unchanged, whatever the fuel. A second request with another exclusion
list on the world left by the first is served in the same way from the same rows, and
the two outputs differ exactly when the two lists disagree on the line-item id of some
cached row. -/
theorem C4_hit_returns_filtered_cache_untouched (env : Env) (fuel : Nat) (c c2 : Campaign)
    (w : World) (rows : List ReportRow)
    (hget : env.redisGetError = none)
    (hhit : liveValue w (cacheKey c.id) = some (JSON.stringify rows))
    (hsame : c2.id = c.id) :
    gamLineItemReport env fuel c w
        = some (Except.ok (filterResponse c.excludedGAMLineItemIds rows),
            { w with log := w.log ++ [Call.redisGet (cacheKey c.id)] })
      ∧ gamLineItemReport env fuel c2 { w with log := w.log ++ [Call.redisGet (cacheKey c.id)] }
        = some (Except.ok (filterResponse c2.excludedGAMLineItemIds rows),
            { w with log := w.log ++ [Call.redisGet (cacheKey c.id), Call.redisGet (cacheKey c.id)] })
      ∧ (filterResponse c.excludedGAMLineItemIds rows
            ≠ filterResponse c2.excludedGAMLineItemIds rows
          ↔ ∃ row, row ∈ rows ∧
              includes c.excludedGAMLineItemIds (lineItemIdOf row)
                ≠ includes c2.excludedGAMLineItemIds (lineItemIdOf row)) := by
  refine ⟨report_hit env fuel c w rows hget hhit, ?_, ?_⟩
  · have h := report_hit env fuel c2 { w with log := w.log ++ [Call.redisGet (cacheKey c.id)] }
      rows hget (by rw [hsame, liveValue_log]; exact hhit)
    rw [h, hsame]
    simp
  · rw [Ne, filterResponse_eq_iff]
    push_neg
    rfl

/-- C4 at the scenario: the cached rows `L1`, `L9`, `L2` are served with exclusion list
`L9` as `L1`, `L2` and, right after, with the empty exclusion list as all three rows. -/
theorem C4_witness :
    gamLineItemReport (scenarioEnv twoRuns) 0 (scenarioCampaign ["L9"]) cachedWorld
        = some (Except.ok [rowFor "L1", rowFor "L2"],
            { cachedWorld with log := cachedWorld.log ++ [Call.redisGet (cacheKey "C1")] })
      ∧ gamLineItemReport (scenarioEnv twoRuns) 0 (scenarioCampaign [])
          { cachedWorld with log := cachedWorld.log ++ [Call.redisGet (cacheKey "C1")] }
        = some (Except.ok [rowFor "L1", rowFor "L9", rowFor "L2"],
            { cachedWorld with
              log := cachedWorld.log ++ [Call.redisGet (cacheKey "C1"), Call.redisGet (cacheKey "C1")] }) := by
  have h := C4_hit_returns_filtered_cache_untouched (scenarioEnv twoRuns) 0
    (scenarioCampaign ["L9"]) (scenarioCampaign []) cachedWorld scenarioRows rfl rfl rfl
  exact ⟨h.1, h.2.1⟩

/-- C5, as stated, fails: in the scenario the cache holds the three rows; the mutation
that changes the exclusion list to the empty list saves the campaign, the save hook
deletes the cache entry, and the next request finds no entry and submits a new job. -/
theorem C5_counterexample :
    liveValue cachedWorld (cacheKey "C1") = some (JSON.stringify scenarioRows)
      ∧ ∃ w1 w2 : World,
          adMetricsExcludedGAMLineItemIds (scenarioEnv twoRuns) "C1" [] cachedWorld
            = some (Except.ok (scenarioCampaign []), w1)
          ∧ Call.redisDel (cacheKey "C1") ∈ w1.log
          ∧ liveValue w1 (cacheKey "C1") = none
          ∧ gamLineItemReport (scenarioEnv twoRuns) 2 (scenarioCampaign []) w1
            = some (Except.ok scenarioRows, w2)
          ∧ (w2.log.filter Call.isSubmission).length
            = (w1.log.filter Call.isSubmission).length + 1 := by
  refine ⟨rfl, worldAfterMutation (scenarioCampaign ["L9"]) [] cachedWorld,
    worldAfterReport (scenarioCampaign []) 1 "https://reports.example/1.csv" "csv" scenarioRows
      (afterChecks 1 2
        (worldBeforePoll (scenarioEnv twoRuns) (scenarioCampaign []) ["A1"] ["L1", "L9", "L2"]
          (worldAfterMutation (scenarioCampaign ["L9"]) [] cachedWorld))),
    ?_, ?_, ?_, ?_, ?_⟩
  · exact mutation_ok (scenarioEnv twoRuns) "C1" [] cachedWorld (scenarioCampaign ["L9"])
      rfl rfl rfl rfl
  · simp [worldAfterMutation, scenarioCampaign]
  · exact liveValue_worldAfterMutation (scenarioCampaign ["L9"]) [] cachedWorld 0
  · exact report_poll_ok (scenarioEnv twoRuns) 2 (scenarioCampaign [])
      (worldAfterMutation (scenarioCampaign ["L9"]) [] cachedWorld) _ ["A1"] ["L1", "L9", "L2"]
      1 true "https://reports.example/1.csv" "csv" scenarioRows rfl
      (congrArg truthy (liveValue_worldAfterMutation (scenarioCampaign ["L9"]) [] cachedWorld 0))
      rfl (by decide) rfl (by decide) rfl
      (poll_completes (scenarioEnv twoRuns) 1 1 2 _ (by intro i hi; interval_cases i; rfl) rfl
        (by decide))
      rfl rfl rfl rfl
  · rfl

/-- C5, amended: the exclusion mutation writes no report to the cache, but its save runs
the post-save hook, which deletes the campaign's entry. With every collaborator
answering, the mutation returns the campaign with the new list after four calls (auth
check, lookup, persist, delete of the campaign key); from then on the key has no live
value, and the next request, after any delay, runs the pipeline again: it submits a new
job and, when the job completes and the download decodes to `rows`, caches `rows` and
returns them filtered by the new exclusion list. -/
theorem C5_exclusion_change_deletes_entry (env : Env) (fuel : Nat) (id : String)
    (excludedIds : List String) (w : World) (c : Campaign) (dt : Nat)
    (ids nodes : List String) (j n : Nat) (url body : String) (rows : List ReportRow)
    (hauth : env.authCheck = Except.ok ())
    (hfind : w.campaigns.find? (fun x => x.id = id && !x.deleted) = some c)
    (hpersist : env.persistError = none)
    (hdel : env.redisDelError = none)
    (hget : env.redisGetError = none)
    (hcust : env.customer c.customerId = Except.ok (some ids)) (hids : ids ≠ [])
    (hnodes : env.lineItems = Except.ok nodes) (hn : nodes ≠ [])
    (hjob : env.reportJob = Except.ok j)
    (hprog : ∀ i, i < n → env.statusAt (w.polls + i) = Except.ok "IN_PROGRESS")
    (hdone : env.statusAt (w.polls + n) = Except.ok "COMPLETED")
    (hfuel : n < fuel)
    (hurl : env.downloadUrl = Except.ok url)
    (hbody : env.download url = Except.ok body)
    (hrows : env.decode body = Except.ok rows)
    (hset : env.redisSetexError = none) :
    ∃ w1 w2 : World,
      adMetricsExcludedGAMLineItemIds env id excludedIds w
          = some (Except.ok { c with excludedGAMLineItemIds := excludedIds }, w1)
        ∧ w1.log = w.log ++ [Call.authCheck, Call.campaignFindOne c.id,
            Call.campaignPersist c.id, Call.redisDel (cacheKey c.id)]
        ∧ liveValue (elapse dt w1) (cacheKey c.id) = none
        ∧ gamLineItemReport env fuel { c with excludedGAMLineItemIds := excludedIds }
            (elapse dt w1)
          = some (Except.ok (filterResponse excludedIds rows), w2)
        ∧ w2.log = w1.log
            ++ callsBeforePoll env { c with excludedGAMLineItemIds := excludedIds } ids nodes
                (w.now + dt)
            ++ List.replicate (n + 1) (Call.getReportJobStatus j)
            ++ [Call.getReportDownloadUrl j, Call.fetch url, Call.csvToJson body,
                Call.redisSetex (cacheKey c.id) 3600 (JSON.stringify rows)]
        ∧ liveValue w2 (cacheKey c.id) = some (JSON.stringify rows) := by
  refine ⟨worldAfterMutation c excludedIds w,
    worldAfterReport { c with excludedGAMLineItemIds := excludedIds } j url body rows
      (afterChecks j (n + 1)
        (worldBeforePoll env { c with excludedGAMLineItemIds := excludedIds } ids nodes
          (elapse dt (worldAfterMutation c excludedIds w)))),
    mutation_ok env id excludedIds w c hauth hfind hpersist hdel, rfl,
    liveValue_worldAfterMutation c excludedIds w dt, ?_, ?_, ?_⟩
  · exact report_poll_ok env fuel { c with excludedGAMLineItemIds := excludedIds }
      (elapse dt (worldAfterMutation c excludedIds w)) _ ids nodes j true url body rows hget
      (congrArg truthy (liveValue_worldAfterMutation c excludedIds w dt)) hcust hids hnodes hn
      hjob
      (poll_completes env j n fuel _ hprog hdone hfuel)
      hurl hbody hrows hset
  · simp [worldAfterReport, afterChecks, worldBeforePoll, elapse, worldAfterMutation]
  · exact liveValue_worldAfterReport { c with excludedGAMLineItemIds := excludedIds } j url body
      rows _

/-- C5 amended, at the scenario: with the three rows cached, changing the exclusion list
from `L9` to the empty list deletes the entry, and the request a minute later returns
all three rows from a new pipeline run. -/
theorem C5_witness :
    ∃ w1 w2 : World,
      adMetricsExcludedGAMLineItemIds (scenarioEnv twoRuns) "C1" [] cachedWorld
          = some (Except.ok (scenarioCampaign []), w1)
        ∧ liveValue (elapse 60 w1) (cacheKey "C1") = none
        ∧ gamLineItemReport (scenarioEnv twoRuns) 2 (scenarioCampaign []) (elapse 60 w1)
          = some (Except.ok [rowFor "L1", rowFor "L9", rowFor "L2"], w2) := by
  obtain ⟨w1, w2, h1, _, h3, h4, _, _⟩ := C5_exclusion_change_deletes_entry
    (scenarioEnv twoRuns) 2 "C1" [] cachedWorld (scenarioCampaign ["L9"]) 60
    ["A1"] ["L1", "L9", "L2"] 1 1 "https://reports.example/1.csv" "csv" scenarioRows
    rfl rfl rfl rfl rfl rfl (by decide) rfl (by decide) rfl
    (by intro i hi; interval_cases i; rfl) rfl (by decide) rfl rfl rfl rfl
  exact ⟨w1, w2, h1, h3, h4⟩

/-- C6: the key the post-save hook deletes is the key of the resolver: every
cache-store call of a request for the campaign addresses
`campaign:gam-line-item-report:<id>`, and every successful save of the campaign,
whatever the saved document holds, issues the delete of that same key right after the
persist. When the delete succeeds the key has no live value at any later time, and the
next request is the pipeline run of a cache miss. -/
theorem C6_save_hook_deletes_report_key (env : Env) (campaign : Campaign) (w : World)
    (hpersist : env.persistError = none) :
    cacheKey campaign.id = "campaign:gam-line-item-report:" ++ campaign.id
      ∧ (∀ env2 fuel, KeepsToKey ("campaign:gam-line-item-report:" ++ campaign.id)
          (gamLineItemReport env2 fuel campaign))
      ∧ ∃ w1 : World,
          Campaign.save env campaign w = some (Except.ok campaign, w1)
            ∧ w1.log = w.log
                ++ [Call.campaignPersist campaign.id,
                    Call.redisDel ("campaign:gam-line-item-report:" ++ campaign.id)]
                ++ (match env.redisDelError with
                    | none => []
                    | some e => [Call.noticeError e])
            ∧ (env.redisDelError = none → ∀ dt env2 fuel, env2.redisGetError = none →
                liveValue (elapse dt w1) (cacheKey campaign.id) = none
                  ∧ gamLineItemReport env2 fuel campaign (elapse dt w1)
                    = reportPipeline env2 fuel campaign
                        { elapse dt w1 with
                          log := w1.log ++ [Call.redisGet (cacheKey campaign.id)] }) := by
  refine ⟨rfl, fun env2 fuel => report_keeps_to_key env2 fuel campaign, ?_⟩
  rw [save_ok env campaign w hpersist]
  cases hd : env.redisDelError with
  | some e =>
    refine ⟨_, rfl, ?_, ?_⟩
    · simp [cacheKey]
    · intro h
      exact absurd h (by simp)
  | none =>
    refine ⟨_, rfl, ?_, ?_⟩
    · simp [cacheKey]
    · intro _ dt env2 fuel hget2
      have hlive : liveValue (elapse dt
          { w with
            campaigns := w.campaigns.map (fun c => if c.id = campaign.id then campaign else c),
            store := w.store.filter (fun kv => kv.1 != cacheKey campaign.id),
            log := w.log ++ [Call.campaignPersist campaign.id,
              Call.redisDel (cacheKey campaign.id)] }) (cacheKey campaign.id) = none := by
        simp [liveValue, elapse, lookup_filter_ne]
      exact ⟨hlive, report_miss env2 fuel campaign _ hget2 (congrArg truthy hlive)⟩

/-- C6 at the scenario: saving campaign `C1` over the cached report deletes the entry. -/
theorem C6_witness :
    ∃ w1 : World,
      Campaign.save (scenarioEnv twoRuns) (scenarioCampaign []) cachedWorld
          = some (Except.ok (scenarioCampaign []), w1)
        ∧ Call.redisDel "campaign:gam-line-item-report:C1" ∈ w1.log
        ∧ liveValue w1 (cacheKey "C1") = none := by
  obtain ⟨_, _, w1, h1, h2, h3⟩ := C6_save_hook_deletes_report_key (scenarioEnv twoRuns)
    (scenarioCampaign []) cachedWorld rfl
  refine ⟨w1, h1, ?_, (h3 rfl 0 (scenarioEnv twoRuns) 0 rfl).1⟩
  rw [h2]
  simp [scenarioCampaign]

/-- C7: when the status checks answer `IN_PROGRESS` n times and then `COMPLETED`,
`pollReportStatus` returns `true` after exactly n + 1 status checks: any fuel above n
gives the result, the world it leaves holds n + 1 more status checks, and fuel for n
checks or fewer is not enough for it to return. -/
theorem C7_poll_completes_after_n_plus_one_checks (env : Env) (j n fuel : Nat) (w : World)
    (hprog : ∀ i, i < n → env.statusAt (w.polls + i) = Except.ok "IN_PROGRESS")
    (hdone : env.statusAt (w.polls + n) = Except.ok "COMPLETED")
    (hfuel : n < fuel) :
    pollReportStatus env j fuel w = some (Except.ok true, afterChecks j (n + 1) w)
      ∧ statusChecks (afterChecks j (n + 1) w).log = statusChecks w.log + (n + 1)
      ∧ (afterChecks j (n + 1) w).polls = w.polls + (n + 1)
      ∧ ∀ f, f ≤ n → pollReportStatus env j f w = none :=
  ⟨poll_completes env j n fuel w hprog hdone hfuel,
   statusChecks_afterChecks j (n + 1) w,
   rfl,
   fun f hf => poll_starved env j n f w hprog hf⟩

/-- C7 at the sequence `IN_PROGRESS`, `IN_PROGRESS`, `COMPLETED`: exactly three checks. -/
theorem C7_witness :
    pollReportStatus (scenarioEnv ["IN_PROGRESS", "IN_PROGRESS", "COMPLETED"]) 1 3 scenarioWorld
        = some (Except.ok true, afterChecks 1 3 scenarioWorld)
      ∧ statusChecks (afterChecks 1 3 scenarioWorld).log = 3 := by
  have h := C7_poll_completes_after_n_plus_one_checks
    (scenarioEnv ["IN_PROGRESS", "IN_PROGRESS", "COMPLETED"]) 1 2 3 scenarioWorld
    (by intro i hi; interval_cases i <;> rfl) rfl (by decide)
  exact ⟨h.1, h.2.1⟩

/-- C8: a status check that answers a string other than `IN_PROGRESS`, `COMPLETED` and
`FAILED` makes `pollReportStatus` throw on that first occurrence, after any number n of
`IN_PROGRESS` answers; the error message quotes the status, and the loop has made n + 1
checks in all, none after the unexpected answer. -/
theorem C8_unknown_status_fails_fast (env : Env) (j n fuel : Nat) (w : World) (status : String)
    (hprog : ∀ i, i < n → env.statusAt (w.polls + i) = Except.ok "IN_PROGRESS")
    (hst : env.statusAt (w.polls + n) = Except.ok status)
    (h1 : status ≠ "IN_PROGRESS") (h2 : status ≠ "COMPLETED") (h3 : status ≠ "FAILED")
    (hfuel : n < fuel) :
    pollReportStatus env j fuel w
        = some (Except.error ("Unknown report status encountered: '" ++ status ++ "'"),
            afterChecks j (n + 1) w)
      ∧ statusChecks (afterChecks j (n + 1) w).log = statusChecks w.log + (n + 1) :=
  ⟨poll_unknown env j n fuel w status hprog hst h1 h2 h3 hfuel,
   statusChecks_afterChecks j (n + 1) w⟩

/-- C8 at the answer `PAUSED` on the first check, with further answers scripted. -/
theorem C8_witness :
    pollReportStatus (scenarioEnv ["PAUSED", "COMPLETED"]) 1 5 scenarioWorld
        = some (Except.error "Unknown report status encountered: 'PAUSED'",
            afterChecks 1 1 scenarioWorld)
      ∧ statusChecks (afterChecks 1 1 scenarioWorld).log = 1 := by
  have h := C8_unknown_status_fails_fast (scenarioEnv ["PAUSED", "COMPLETED"]) 1 0 5
    scenarioWorld "PAUSED" (by intro i hi; omega) rfl (by decide) (by decide) (by decide)
    (by decide)
  exact ⟨h.1, h.2⟩

/-- C9, as stated, fails: on the sequence `SUBMITTED`, `COMPLETED` the loop throws the
unknown-status error at the first check and succeeds for no amount of fuel. -/
theorem C9_counterexample :
    pollReportStatus (scenarioEnv ["SUBMITTED", "COMPLETED"]) 1 2 scenarioWorld
        = some (Except.error "Unknown report status encountered: 'SUBMITTED'",
            afterChecks 1 1 scenarioWorld)
      ∧ ∀ fuel w1,
          pollReportStatus (scenarioEnv ["SUBMITTED", "COMPLETED"]) 1 fuel scenarioWorld
            ≠ some (Except.ok true, w1) := by
  have hstep : ∀ fuel, 0 < fuel →
      pollReportStatus (scenarioEnv ["SUBMITTED", "COMPLETED"]) 1 fuel scenarioWorld
        = some (Except.error "Unknown report status encountered: 'SUBMITTED'",
            afterChecks 1 1 scenarioWorld) := fun fuel hfuel =>
    poll_unknown (scenarioEnv ["SUBMITTED", "COMPLETED"]) 1 0 fuel scenarioWorld "SUBMITTED"
      (by intro i hi; omega) rfl (by decide) (by decide) (by decide) hfuel
  refine ⟨hstep 2 (by decide), ?_⟩
  intro fuel w1 h
  cases fuel with
  | zero => simp [pollReportStatus] at h
  | succ m =>
    rw [hstep (m + 1) (Nat.succ_pos m)] at h
    simp at h

/-- C9, amended: only `IN_PROGRESS` is non-terminal. After any number n of `IN_PROGRESS`
answers, `COMPLETED` ends the loop with `true`, and `SUBMITTED` ends it with the
unknown-status error that quotes `SUBMITTED`, both after n + 1 checks. -/
theorem C9_only_inProgress_loops (env : Env) (j n fuel : Nat) (w : World)
    (hprog : ∀ i, i < n → env.statusAt (w.polls + i) = Except.ok "IN_PROGRESS")
    (hfuel : n < fuel) :
    (env.statusAt (w.polls + n) = Except.ok "COMPLETED" →
        pollReportStatus env j fuel w = some (Except.ok true, afterChecks j (n + 1) w))
      ∧ (env.statusAt (w.polls + n) = Except.ok "SUBMITTED" →
        pollReportStatus env j fuel w
          = some (Except.error "Unknown report status encountered: 'SUBMITTED'",
              afterChecks j (n + 1) w)) :=
  ⟨fun hdone => poll_completes env j n fuel w hprog hdone hfuel,
   fun hsub => poll_unknown env j n fuel w "SUBMITTED" hprog hsub
     (by decide) (by decide) (by decide) hfuel⟩

/-- C9 amended, at `IN_PROGRESS`, `SUBMITTED`, `COMPLETED`: the loop stops at the
`SUBMITTED` answer, the second check. -/
theorem C9_witness :
    pollReportStatus (scenarioEnv ["IN_PROGRESS", "SUBMITTED", "COMPLETED"]) 1 3 scenarioWorld
      = some (Except.error "Unknown report status encountered: 'SUBMITTED'",
          afterChecks 1 2 scenarioWorld) :=
  (C9_only_inProgress_loops (scenarioEnv ["IN_PROGRESS", "SUBMITTED", "COMPLETED"]) 1 1 3
    scenarioWorld (by intro i hi; interval_cases i; rfl) (by decide)).2 rfl

/-- C10: a status check that answers `FAILED`, after any number n of `IN_PROGRESS`
answers, ends the polling loop with the error `Report creation failed!` after n + 1
checks, none after the `FAILED` answer; the request that ran the loop ends with that
error in the same world, so it issues no download-URL query, no download, no decoding
and no cache write, and the store is as before. A status check that answers
`COMPLETED` ends the loop with the value `true` and no error. -/
theorem C10_failed_and_completed_are_terminal (env : Env) (fuel : Nat) (c : Campaign)
    (w : World) (ids nodes : List String) (j n : Nat)
    (hget : env.redisGetError = none)
    (hmiss : truthy (liveValue w (cacheKey c.id)) = false)
    (hcust : env.customer c.customerId = Except.ok (some ids)) (hids : ids ≠ [])
    (hnodes : env.lineItems = Except.ok nodes) (hn : nodes ≠ [])
    (hjob : env.reportJob = Except.ok j)
    (hprog : ∀ i, i < n → env.statusAt (w.polls + i) = Except.ok "IN_PROGRESS")
    (hfuel : n < fuel) :
    (env.statusAt (w.polls + n) = Except.ok "FAILED" →
        pollReportStatus env j fuel (worldBeforePoll env c ids nodes w)
            = some (Except.error "Report creation failed!",
                afterChecks j (n + 1) (worldBeforePoll env c ids nodes w))
          ∧ gamLineItemReport env fuel c w
            = some (Except.error "Report creation failed!",
                afterChecks j (n + 1) (worldBeforePoll env c ids nodes w))
          ∧ (afterChecks j (n + 1) (worldBeforePoll env c ids nodes w)).store = w.store
          ∧ (afterChecks j (n + 1) (worldBeforePoll env c ids nodes w)).log
            = w.log ++ callsBeforePoll env c ids nodes w.now
                ++ List.replicate (n + 1) (Call.getReportJobStatus j)
          ∧ ∀ x, x ∈ callsBeforePoll env c ids nodes w.now
                ++ List.replicate (n + 1) (Call.getReportJobStatus j) →
              Call.isDownload x = false ∧ Call.isCacheWrite x = false)
      ∧ (env.statusAt (w.polls + n) = Except.ok "COMPLETED" →
        pollReportStatus env j fuel (worldBeforePoll env c ids nodes w)
          = some (Except.ok true, afterChecks j (n + 1) (worldBeforePoll env c ids nodes w))) := by
  constructor
  · intro hfail
    have hp := poll_fails env j n fuel (worldBeforePoll env c ids nodes w) hprog hfail hfuel
    refine ⟨hp, ?_, rfl, ?_, ?_⟩
    · exact report_poll_error env fuel c w _ ids nodes j _ hget hmiss hcust hids hnodes hn hjob hp
    · simp [afterChecks, worldBeforePoll]
    · intro x hx
      rcases List.mem_append.mp hx with h | h
      · simp only [callsBeforePoll, List.mem_cons, List.mem_singleton, List.not_mem_nil,
          or_false] at h
        rcases h with rfl | rfl | rfl | rfl <;> exact ⟨rfl, rfl⟩
      · rw [List.eq_of_mem_replicate h]
        exact ⟨rfl, rfl⟩
  · intro hdone
    exact poll_completes env j n fuel (worldBeforePoll env c ids nodes w) hprog hdone hfuel

/-- C10 at the scenario with the statuses `IN_PROGRESS`, `FAILED`: the request ends with
the failure error after two status checks and the cache stays empty. -/
theorem C10_witness :
    gamLineItemReport (scenarioEnv ["IN_PROGRESS", "FAILED"]) 5 (scenarioCampaign ["L9"])
        scenarioWorld
        = some (Except.error "Report creation failed!",
            afterChecks 1 2
              (worldBeforePoll (scenarioEnv ["IN_PROGRESS", "FAILED"]) (scenarioCampaign ["L9"])
                ["A1"] ["L1", "L9", "L2"] scenarioWorld))
      ∧ (afterChecks 1 2
          (worldBeforePoll (scenarioEnv ["IN_PROGRESS", "FAILED"]) (scenarioCampaign ["L9"])
            ["A1"] ["L1", "L9", "L2"] scenarioWorld)).store = [] := by
  have h := (C10_failed_and_completed_are_terminal (scenarioEnv ["IN_PROGRESS", "FAILED"]) 5
    (scenarioCampaign ["L9"]) scenarioWorld ["A1"] ["L1", "L9", "L2"] 1 1 rfl rfl rfl
    (by decide) rfl (by decide) rfl (by intro i hi; interval_cases i; rfl) (by decide)).1 rfl
  exact ⟨h.2.1, h.2.2.1⟩

/-! ## Facts for the second group of claims -/

/-- A job that stays `IN_PROGRESS` keeps the loop from returning, whatever the fuel. -/
theorem poll_never_returns (env : Env) (j : Nat) (w : World)
    (hstall : ∀ i, env.statusAt (w.polls + i) = Except.ok "IN_PROGRESS") (fuel : Nat) :
    pollReportStatus env j fuel w = none :=
  poll_starved env j fuel fuel w (fun i _ => hstall i) (Nat.le_refl fuel)

theorem poll_step_rejected (env : Env) (j fuel : Nat) (w : World) (e : String)
    (h : env.statusAt w.polls = Except.error e) :
    pollReportStatus env j (fuel + 1) w = some (Except.error e, afterChecks j 1 w) := by
  simp [pollReportStatus, h, afterChecks]

/-- A run of `n` answers `IN_PROGRESS` followed by a rejected status check ends the loop
with the error of the rejection after `n + 1` checks. -/
theorem poll_rejected (env : Env) (j n fuel : Nat) (w : World) (e : String)
    (hprog : ∀ i, i < n → env.statusAt (w.polls + i) = Except.ok "IN_PROGRESS")
    (hrej : env.statusAt (w.polls + n) = Except.error e)
    (hfuel : n < fuel) :
    pollReportStatus env j fuel w = some (Except.error e, afterChecks j (n + 1) w) := by
  obtain ⟨m, rfl⟩ : ∃ m, fuel = n + (m + 1) := ⟨fuel - n - 1, by omega⟩
  rw [poll_skip_inProgress env j n (m + 1) w hprog,
    poll_step_rejected env j m (afterChecks j n w) e (by simpa [afterChecks] using hrej),
    afterChecks_afterChecks]

/-- Every return of the polling loop comes at the first answer other than `IN_PROGRESS`,
in the world with the status checks up to that answer and nothing else changed. -/
theorem poll_return_shape (env : Env) (j : Nat) :
    ∀ (fuel : Nat) (w : World) (out : Except String Bool) (w1 : World),
      pollReportStatus env j fuel w = some (out, w1) →
      ∃ k, k < fuel
        ∧ (∀ i, i < k → env.statusAt (w.polls + i) = Except.ok "IN_PROGRESS")
        ∧ env.statusAt (w.polls + k) ≠ Except.ok "IN_PROGRESS"
        ∧ w1 = afterChecks j (k + 1) w := by
  intro fuel
  induction fuel with
  | zero =>
    intro w out w1 h
    simp [pollReportStatus] at h
  | succ fuel ih =>
    intro w out w1 h
    by_cases hip : env.statusAt w.polls = Except.ok "IN_PROGRESS"
    · rw [poll_step_inProgress env j fuel w hip] at h
      obtain ⟨k, hk, hbefore, hother, hw1⟩ := ih (afterChecks j 1 w) out w1 h
      refine ⟨k + 1, Nat.succ_lt_succ hk, ?_, ?_, ?_⟩
      · intro i hi
        cases i with
        | zero => simpa using hip
        | succ i =>
          have := hbefore i (Nat.lt_of_succ_lt_succ hi)
          simpa [afterChecks, Nat.add_assoc, Nat.add_comm 1 i] using this
      · intro hk1
        apply hother
        simpa [afterChecks, Nat.add_assoc, Nat.add_comm 1 k] using hk1
      · rw [hw1, afterChecks_afterChecks]
        congr 1
        omega
    · refine ⟨0, Nat.succ_pos fuel, fun i hi => absurd hi (Nat.not_lt_zero i),
        by simpa using hip, ?_⟩
      cases hs : env.statusAt w.polls with
      | error e =>
        rw [poll_step_rejected env j fuel w e hs] at h
        simp at h
        exact h.2.symm
      | ok status =>
        have h1 : status ≠ "IN_PROGRESS" := by
          intro heq
          exact hip (by rw [hs, heq])
        by_cases h2 : status = "COMPLETED"
        · rw [poll_step_completed env j fuel w (by rw [hs, h2])] at h
          simp at h
          exact h.2.symm
        · by_cases h3 : status = "FAILED"
          · rw [poll_step_failed env j fuel w (by rw [hs, h3])] at h
            simp at h
            exact h.2.symm
          · rw [poll_step_unknown env j fuel w status hs h1 h2 h3] at h
            simp at h
            exact h.2.symm

/-- A request for a customer without advertiser ids caches the empty result and returns
it after the cache read and the customer lookup. -/
theorem report_no_advertisers (env : Env) (fuel : Nat) (c : Campaign) (w : World)
    (found : Option (List String))
    (hget : env.redisGetError = none)
    (hmiss : truthy (liveValue w (cacheKey c.id)) = false)
    (hcust : env.customer c.customerId = Except.ok found)
    (hnone : found = none ∨ found = some [])
    (hset : env.redisSetexError = none) :
    gamLineItemReport env fuel c w
      = some (Except.ok [],
          worldAfterEmptyResult c
            [Call.redisGet (cacheKey c.id), Call.customerLoad c.customerId] w) := by
  rw [report_miss env fuel c w hget hmiss]
  rcases hnone with rfl | rfl <;>
    simp [reportPipeline, andThen, call, hcust, setToCache, redis.setexAsync, hset, ret,
      worldAfterEmptyResult]

/-- A request whose line-item lookup finds nothing caches the empty result and returns
it. -/
theorem report_no_lineItems (env : Env) (fuel : Nat) (c : Campaign) (w : World)
    (ids : List String)
    (hget : env.redisGetError = none)
    (hmiss : truthy (liveValue w (cacheKey c.id)) = false)
    (hcust : env.customer c.customerId = Except.ok (some ids)) (hids : ids ≠ [])
    (hnodes : env.lineItems = Except.ok [])
    (hset : env.redisSetexError = none) :
    gamLineItemReport env fuel c w
      = some (Except.ok [],
          worldAfterEmptyResult c
            [Call.redisGet (cacheKey c.id), Call.customerLoad c.customerId,
             Call.gamLoadMany c.startDate c.endDate ids 500] w) := by
  rw [report_miss env fuel c w hget hmiss]
  cases ids with
  | nil => exact absurd rfl hids
  | cons a as =>
    simp [reportPipeline, andThen, call, hcust, hnodes, setToCache, redis.setexAsync, hset, ret,
      worldAfterEmptyResult]

theorem liveValue_worldAfterEmptyResult (c : Campaign) (calls : List Call) (w : World) :
    liveValue (worldAfterEmptyResult c calls w) (cacheKey c.id) = some (JSON.stringify []) := by
  simp [liveValue, worldAfterEmptyResult, List.lookup]

/-! ## Which calls a request may issue -/

theorem confined_andThen {α β : Type} (now : Nat) (allowed : Call → Bool) (m : Async α)
    (k : α → Async β) (hm : Confined now allowed m) (hk : ∀ a, Confined now allowed (k a)) :
    Confined now allowed (andThen m k) := by
  intro w out w1 hw h
  rcases andThen_some m k w w1 out h with ⟨e, he, _⟩ | ⟨a, w2, ha, hka⟩
  · exact hm w _ w1 hw he
  · obtain ⟨hnow2, c1, h1, hc1⟩ := hm w _ w2 hw ha
    obtain ⟨hnow1, c2, h2, hc2⟩ := hk a w2 out w1 hnow2 hka
    refine ⟨hnow1, c1 ++ c2, by rw [h2, h1, List.append_assoc], ?_⟩
    intro c hc
    rcases List.mem_append.mp hc with h | h
    · exact hc1 c h
    · exact hc2 c h

theorem confined_ret {α : Type} (now : Nat) (allowed : Call → Bool) (a : α) :
    Confined now allowed (ret a) := by
  intro w out w1 hw h
  simp [ret] at h
  exact ⟨by rw [← h.2]; exact hw, [], by simp [← h.2], by simp⟩

theorem confined_pure {α : Type} (now : Nat) (allowed : Call → Bool) (r : Except String α) :
    Confined now allowed (fun w => some (r, w)) := by
  intro w out w1 hw h
  simp at h
  exact ⟨by rw [← h.2]; exact hw, [], by simp [← h.2], by simp⟩

/-- Reading the clock hands the reading of the start world to what follows. -/
theorem confined_getNow {β : Type} (now : Nat) (allowed : Call → Bool) (k : Nat → Async β)
    (hk : Confined now allowed (k now)) : Confined now allowed (andThen getNow k) := by
  intro w out w1 hw h
  have : andThen getNow k w = k now w := by simp [andThen, getNow, hw]
  rw [this] at h
  exact hk w out w1 hw h

theorem confined_call {α : Type} (now : Nat) (allowed : Call → Bool) (c : Call)
    (answer : Except String α) (hc : allowed c = true) :
    Confined now allowed (call c answer) := by
  intro w out w1 hw h
  simp [call] at h
  exact ⟨by rw [← h.2]; exact hw, [c], by simp [← h.2], by simpa using hc⟩

theorem confined_getAsync (env : Env) (now : Nat) (allowed : Call → Bool) (key : String)
    (hc : allowed (Call.redisGet key) = true) :
    Confined now allowed (redis.getAsync env key) := by
  intro w out w1 hw h
  unfold redis.getAsync at h
  cases hg : env.redisGetError <;> simp [hg] at h <;>
    exact ⟨by rw [← h.2]; exact hw, [Call.redisGet key], by simp [← h.2], by simpa using hc⟩

theorem confined_setToCache (env : Env) (now : Nat) (allowed : Call → Bool) (key : String)
    (result : List ReportRow)
    (hc : allowed (Call.redisSetex key 3600 (JSON.stringify result)) = true) :
    Confined now allowed (setToCache env key result) := by
  intro w out w1 hw h
  unfold setToCache redis.setexAsync at h
  cases hg : env.redisSetexError <;> simp [hg] at h <;>
    exact ⟨by rw [← h.2]; exact hw, [Call.redisSetex key 3600 (JSON.stringify result)],
      by simp [← h.2], by simpa using hc⟩

theorem confined_poll (env : Env) (now : Nat) (allowed : Call → Bool) (j : Nat)
    (hc : allowed (Call.getReportJobStatus j) = true) :
    ∀ fuel, Confined now allowed (pollReportStatus env j fuel) := by
  intro fuel
  induction fuel with
  | zero =>
    intro w out w1 _ h
    simp [pollReportStatus] at h
  | succ fuel ih =>
    intro w out w1 hw h
    unfold pollReportStatus at h
    simp only at h
    have one : ∀ r : Except String Bool,
        some (r, afterChecks j 1 w) = some (out, w1) →
        w1.now = now ∧ ∃ calls, w1.log = w.log ++ calls ∧ ∀ c, c ∈ calls → allowed c = true := by
      intro r hr
      simp at hr
      exact ⟨by rw [← hr.2]; exact hw, [Call.getReportJobStatus j],
        by simp [← hr.2, afterChecks], by simpa using hc⟩
    cases hs : env.statusAt w.polls with
    | error e =>
      simp only [hs] at h
      exact one _ h
    | ok status =>
      simp only [hs] at h
      by_cases h1 : status = "IN_PROGRESS"
      · simp only [h1, if_true] at h
        obtain ⟨hnow, calls, hl, hcs⟩ := ih (afterChecks j 1 w) out w1 hw h
        refine ⟨hnow, Call.getReportJobStatus j :: calls, by simp [hl, afterChecks], ?_⟩
        intro c hmem
        rcases List.mem_cons.mp hmem with rfl | hmem
        · exact hc
        · exact hcs c hmem
      · by_cases h2 : status = "COMPLETED"
        · simp only [h1, h2, if_true, if_false] at h
          exact one _ h
        · by_cases h3 : status = "FAILED"
          · simp only [h1, h2, h3, if_true, if_false] at h
            exact one _ h
          · simp only [h1, h2, h3, if_false] at h
            exact one _ h

theorem confined_emptyResponse (env : Env) (c : Campaign) (now : Nat) :
    Confined now (Call.byReport env c now)
      (andThen (setToCache env (cacheKey c.id) []) fun _ => ret ([] : List ReportRow)) :=
  confined_andThen now _ _ _
    (confined_setToCache env now _ _ [] (by simp [Call.byReport]))
    (fun _ => confined_ret now _ _)

/-- The pipeline after a cache miss issues only calls a report request may issue. -/
theorem pipeline_confined (env : Env) (fuel : Nat) (c : Campaign) (now : Nat) :
    Confined now (Call.byReport env c now) (reportPipeline env fuel c) := by
  unfold reportPipeline
  apply confined_andThen _ _ _ _ (confined_call _ _ _ _ (by simp [Call.byReport]))
  intro gamAdvertiserIds
  match gamAdvertiserIds with
  | none => exact confined_emptyResponse env c now
  | some [] => exact confined_emptyResponse env c now
  | some (a :: as) =>
    apply confined_andThen _ _ _ _ (confined_call _ _ _ _ (by rfl))
    intro lineItemIds
    by_cases hl : lineItemIds.length = 0
    · simp only [hl, if_true]
      exact confined_emptyResponse env c now
    · simp only [hl, if_false]
      apply confined_getNow
      apply confined_andThen _ _ _ _
        (confined_call _ _ _ _ (by simp [Call.byReport, windowStart, windowEnd]))
      intro reportJobId
      apply confined_andThen _ _ _ _ (confined_poll env _ _ reportJobId (by rfl) fuel)
      intro _
      apply confined_andThen _ _ _ _ (confined_call _ _ _ _ (by rfl))
      intro downloadUrl
      apply confined_andThen _ _ _ _ (confined_call _ _ _ _ (by rfl))
      intro body
      apply confined_andThen _ _ _ _ (confined_call _ _ _ _ (by rfl))
      intro json
      apply confined_andThen _ _ _ _
        (confined_setToCache env _ _ _ json (by simp [Call.byReport]))
      intro _
      exact confined_ret _ _ _

/-- Every run of the resolver that returns has issued only calls a report request may
issue, with the clock reading of its start. -/
theorem report_confined (env : Env) (fuel : Nat) (c : Campaign) (now : Nat) :
    Confined now (Call.byReport env c now) (gamLineItemReport env fuel c) := by
  unfold gamLineItemReport
  apply confined_andThen _ _ _ _ (confined_getAsync env _ _ _ (by simp [Call.byReport]))
  intro fromCache
  cases fromCache with
  | none => exact pipeline_confined env fuel c now
  | some text =>
    cases text with
    | blank => exact pipeline_confined env fuel c now
    | json rows =>
      exact confined_andThen _ _ _ _ (confined_pure _ _ _) (fun _ => confined_ret _ _ _)
    | garbage raw =>
      exact confined_andThen _ _ _ _ (confined_pure _ _ _) (fun _ => confined_ret _ _ _)

/-! ## Facts about cache entries -/

theorem entriesUnder_fresh (key : String) (entry : CacheEntry)
    (store : List (String × CacheEntry)) :
    entriesUnder key ((key, entry) :: store.filter (fun kv => kv.1 != key)) = 1 := by
  have h : (store.filter (fun kv => kv.1 != key)).filter (fun kv => kv.1 == key) = [] := by
    rw [List.filter_filter]
    apply List.filter_eq_nil_iff.mpr
    intro kv _
    by_cases hk : kv.1 = key <;> simp [hk]
  simp [entriesUnder, List.filter_cons, h]

theorem entriesUnder_deleted (key : String) (store : List (String × CacheEntry)) :
    entriesUnder key (store.filter (fun kv => kv.1 != key)) = 0 := by
  have h : (store.filter (fun kv => kv.1 != key)).filter (fun kv => kv.1 == key) = [] := by
    rw [List.filter_filter]
    apply List.filter_eq_nil_iff.mpr
    intro kv _
    by_cases hk : kv.1 = key <;> simp [hk]
  simp [entriesUnder, h]

/-- A successful cache write leaves the written text live under the key for the next
3600 seconds, as the only entry under that key. -/
theorem setToCache_ok (env : Env) (key : String) (result : List ReportRow) (w : World)
    (hset : env.redisSetexError = none) :
    setToCache env key result w
      = some (Except.ok (),
          { w with
            log := w.log ++ [Call.redisSetex key 3600 (JSON.stringify result)],
            store := (key, ⟨JSON.stringify result, w.now + 3600⟩)
              :: w.store.filter (fun kv => kv.1 != key) }) := by
  simp [setToCache, redis.setexAsync, hset]

theorem clearReportCache_ok (env : Env) (c : Campaign) (w : World)
    (hdel : env.redisDelError = none) :
    clearReportCache env c w
      = some (Except.ok (),
          { w with
            log := w.log ++ [Call.redisDel (cacheKey c.id)],
            store := w.store.filter (fun kv => kv.1 != cacheKey c.id) }) := by
  simp [clearReportCache, redis.delAsync, hdel, cacheKey]

theorem clearReportCache_rejected (env : Env) (c : Campaign) (w : World) (e : String)
    (hdel : env.redisDelError = some e) :
    clearReportCache env c w
      = some (Except.ok (),
          { w with
            log := w.log ++ [Call.redisDel (cacheKey c.id), Call.noticeError e] }) := by
  simp [clearReportCache, redis.delAsync, hdel, cacheKey]

/-! ## Requests that fail after the line items were found -/

/-- A rejected job submission ends the request with the rejection, after the four calls
up to the submission. -/
theorem report_submit_error (env : Env) (fuel : Nat) (c : Campaign) (w : World)
    (ids nodes : List String) (e : String)
    (hget : env.redisGetError = none)
    (hmiss : truthy (liveValue w (cacheKey c.id)) = false)
    (hcust : env.customer c.customerId = Except.ok (some ids)) (hids : ids ≠ [])
    (hnodes : env.lineItems = Except.ok nodes) (hn : nodes ≠ [])
    (hjob : env.reportJob = Except.error e) :
    gamLineItemReport env fuel c w
      = some (Except.error e, worldBeforePoll env c ids nodes w) := by
  rw [report_miss env fuel c w hget hmiss]
  cases ids with
  | nil => exact absurd rfl hids
  | cons a as =>
    simp [reportPipeline, andThen, call, getNow, hcust, hnodes, hn, hjob, worldBeforePoll,
      callsBeforePoll]

/-- A request whose polling loop succeeds continues with the download-URL query, the
download, the decoding and the cache write, from the world the loop left. -/
theorem report_after_poll (env : Env) (fuel : Nat) (c : Campaign) (w w2 : World)
    (ids nodes : List String) (j : Nat) (b : Bool)
    (hget : env.redisGetError = none)
    (hmiss : truthy (liveValue w (cacheKey c.id)) = false)
    (hcust : env.customer c.customerId = Except.ok (some ids)) (hids : ids ≠ [])
    (hnodes : env.lineItems = Except.ok nodes) (hn : nodes ≠ [])
    (hjob : env.reportJob = Except.ok j)
    (hpoll : pollReportStatus env j fuel (worldBeforePoll env c ids nodes w)
      = some (Except.ok b, w2)) :
    gamLineItemReport env fuel c w
      = (andThen (call (Call.getReportDownloadUrl j) env.downloadUrl) fun downloadUrl =>
          andThen (call (Call.fetch downloadUrl) (env.download downloadUrl)) fun body =>
          andThen (call (Call.csvToJson body) (env.decode body)) fun json =>
          andThen (setToCache env (cacheKey c.id) json) fun _ =>
          ret (filterResponse c.excludedGAMLineItemIds json)) w2 := by
  rw [report_miss env fuel c w hget hmiss]
  cases ids with
  | nil => exact absurd rfl hids
  | cons a as =>
    unfold worldBeforePoll callsBeforePoll at hpoll
    simp [reportPipeline, andThen, call, getNow, hcust, hnodes, hn, hjob]
    simp at hpoll
    rw [hpoll]

theorem cacheWrites_afterChecks (env : Env) (c : Campaign) (ids nodes : List String)
    (j n : Nat) (w : World) (extra : List Call)
    (hextra : extra.filter Call.isCacheWrite = []) :
    ((afterChecks j n (worldBeforePoll env c ids nodes w)).log ++ extra).filter Call.isCacheWrite
      = w.log.filter Call.isCacheWrite := by
  simp [afterChecks, worldBeforePoll, callsBeforePoll, List.filter_append, List.filter_cons,
    Call.isCacheWrite, List.filter_replicate, hextra]

/-! ## Requests against a corrupt entry or a failing store -/

/-- A request that reads text it cannot parse ends with the parse error after the cache
read alone. -/
theorem report_corrupt (env : Env) (fuel : Nat) (c : Campaign) (w : World) (text : Payload)
    (e : String)
    (hget : env.redisGetError = none)
    (hlive : liveValue w (cacheKey c.id) = some text)
    (htruthy : truthy (some text) = true)
    (hparse : JSON.parse text = Except.error e) :
    gamLineItemReport env fuel c w
      = some (Except.error e, { w with log := w.log ++ [Call.redisGet (cacheKey c.id)] }) := by
  cases text with
  | blank => simp [truthy] at htruthy
  | json rows => simp [JSON.parse] at hparse
  | garbage raw =>
    simp [gamLineItemReport, andThen, redis.getAsync, hget, hlive, truthy, hparse]

/-- A request whose cache read is rejected ends with the rejection. -/
theorem report_read_rejected (env : Env) (fuel : Nat) (c : Campaign) (w : World) (e : String)
    (hget : env.redisGetError = some e) :
    gamLineItemReport env fuel c w
      = some (Except.error e, { w with log := w.log ++ [Call.redisGet (cacheKey c.id)] }) := by
  simp [gamLineItemReport, andThen, redis.getAsync, hget]

/-- A request for a customer without advertiser ids whose cache write is rejected ends
with the rejection instead of the empty result. -/
theorem report_no_advertisers_write_rejected (env : Env) (fuel : Nat) (c : Campaign)
    (w : World) (found : Option (List String)) (e : String)
    (hget : env.redisGetError = none)
    (hmiss : truthy (liveValue w (cacheKey c.id)) = false)
    (hcust : env.customer c.customerId = Except.ok found)
    (hnone : found = none ∨ found = some [])
    (hset : env.redisSetexError = some e) :
    gamLineItemReport env fuel c w
      = some (Except.error e,
          { w with
            log := w.log ++ [Call.redisGet (cacheKey c.id), Call.customerLoad c.customerId,
              Call.redisSetex (cacheKey c.id) 3600 (JSON.stringify [])] }) := by
  rw [report_miss env fuel c w hget hmiss]
  rcases hnone with rfl | rfl <;>
    simp [reportPipeline, andThen, call, hcust, setToCache, redis.setexAsync, hset]

/-- A request that downloaded and decoded a report and whose cache write is rejected
ends with the rejection instead of the filtered rows. -/
theorem report_write_rejected (env : Env) (fuel : Nat) (c : Campaign) (w w2 : World)
    (ids nodes : List String) (j : Nat) (b : Bool) (url body : String) (rows : List ReportRow)
    (e : String)
    (hget : env.redisGetError = none)
    (hmiss : truthy (liveValue w (cacheKey c.id)) = false)
    (hcust : env.customer c.customerId = Except.ok (some ids)) (hids : ids ≠ [])
    (hnodes : env.lineItems = Except.ok nodes) (hn : nodes ≠ [])
    (hjob : env.reportJob = Except.ok j)
    (hpoll : pollReportStatus env j fuel (worldBeforePoll env c ids nodes w)
      = some (Except.ok b, w2))
    (hurl : env.downloadUrl = Except.ok url)
    (hbody : env.download url = Except.ok body)
    (hrows : env.decode body = Except.ok rows)
    (hset : env.redisSetexError = some e) :
    gamLineItemReport env fuel c w
      = some (Except.error e,
          { w2 with
            log := w2.log ++ [Call.getReportDownloadUrl j, Call.fetch url, Call.csvToJson body,
              Call.redisSetex (cacheKey c.id) 3600 (JSON.stringify rows)] }) := by
  rw [report_after_poll env fuel c w w2 ids nodes j b hget hmiss hcust hids hnodes hn hjob hpoll]
  simp [andThen, call, hurl, hbody, hrows, setToCache, redis.setexAsync, hset]

/-- The video report never reads the campaign's video exclusion list. -/
theorem videoReport_ignores_video_exclusions (env : Env) (c : Campaign)
    (excludedIds : List String) :
    brightcoveVideoReport env { c with excludedBrightcoveVideoIds := excludedIds }
      = brightcoveVideoReport env c := rfl

/-! ## Facts about the model of the date library -/

theorem daysInMonth_le (y m : Nat) : daysInMonth y m ≤ 31 := by
  unfold daysInMonth
  split
  · split <;> omega
  · split <;> omega

theorem daysInYear_pos (y : Nat) : 365 ≤ daysInYear y ∧ daysInYear y ≤ 366 := by
  unfold daysInYear
  split <;> omega

theorem monthLoop_year (y : Nat) : ∀ f m r, (monthLoop y f m r).year = y := by
  intro f
  induction f with
  | zero => intro m r; rfl
  | succ f ih =>
    intro m r
    unfold monthLoop
    split
    · rfl
    · exact ih _ _

theorem monthLoop_month (y : Nat) : ∀ f m r,
    m ≤ (monthLoop y f m r).month ∧ (monthLoop y f m r).month ≤ m + f := by
  intro f
  induction f with
  | zero => intro m r; exact ⟨Nat.le_refl m, Nat.le_refl m⟩
  | succ f ih =>
    intro m r
    unfold monthLoop
    split
    · exact ⟨Nat.le_refl m, by simp⟩
    · have := ih (m + 1) (r - daysInMonth y m)
      omega

theorem monthLoop_day (y : Nat) : ∀ f m r,
    1 ≤ (monthLoop y f m r).day ∧ (monthLoop y f m r).day ≤ r + 1 := by
  intro f
  induction f with
  | zero => intro m r; exact ⟨by simp [monthLoop], Nat.le_refl _⟩
  | succ f ih =>
    intro m r
    unfold monthLoop
    split
    · exact ⟨by simp, Nat.le_refl _⟩
    · have := ih (m + 1) (r - daysInMonth y m)
      omega

theorem monthLoop_mono (y : Nat) : ∀ f m r1 r2, r1 ≤ r2 →
    (monthLoop y f m r1).key ≤ (monthLoop y f m r2).key := by
  intro f
  induction f with
  | zero =>
    intro m r1 r2 h
    simp [monthLoop, CivilDate.key]
    omega
  | succ f ih =>
    intro m r1 r2 h
    by_cases h2 : r2 < daysInMonth y m
    · have h1 : r1 < daysInMonth y m := Nat.lt_of_le_of_lt h h2
      simp [monthLoop, h1, h2, CivilDate.key]
      omega
    · by_cases h1 : r1 < daysInMonth y m
      · have hy := monthLoop_year y f (m + 1) (r2 - daysInMonth y m)
        have hm := monthLoop_month y f (m + 1) (r2 - daysInMonth y m)
        have hd := monthLoop_day y f (m + 1) (r2 - daysInMonth y m)
        have hle := daysInMonth_le y m
        simp only [monthLoop, h1, h2, if_true, if_false, CivilDate.key, hy]
        omega
      · simp only [monthLoop, h1, h2, if_false]
        exact ih _ _ _ (Nat.sub_le_sub_right h _)

theorem yearLoop_year (f : Nat) : ∀ y r, y ≤ (yearLoop f y r).year := by
  induction f with
  | zero => intro y r; simp [yearLoop, monthLoop_year]
  | succ f ih =>
    intro y r
    unfold yearLoop
    split
    · simp [monthLoop_year]
    · have := ih (y + 1) (r - daysInYear y)
      omega

theorem yearLoop_key_ge (f y r : Nat) : y * 10000 ≤ (yearLoop f y r).key := by
  have := yearLoop_year f y r
  unfold CivilDate.key
  omega

theorem monthLoop_key_lt (y r : Nat) (h : r < 367) :
    (monthLoop y 11 1 r).key < (y + 1) * 10000 := by
  have hy := monthLoop_year y 11 1 r
  have hm := monthLoop_month y 11 1 r
  have hd := monthLoop_day y 11 1 r
  unfold CivilDate.key
  omega

theorem yearLoop_mono : ∀ f1 f2 y r1 r2, r1 ≤ f1 → r2 ≤ f2 → r1 ≤ r2 →
    (yearLoop f1 y r1).key ≤ (yearLoop f2 y r2).key := by
  intro f1
  induction f1 with
  | zero =>
    intro f2 y r1 r2 h1 h2 h
    have hr1 : r1 = 0 := by omega
    subst hr1
    cases f2 with
    | zero =>
      have hr2 : r2 = 0 := by omega
      subst hr2
      exact Nat.le_refl _
    | succ f2 =>
      by_cases hlt : r2 < daysInYear y
      · simp only [yearLoop, hlt, if_true]
        exact monthLoop_mono y 11 1 0 r2 (Nat.zero_le _)
      · simp only [yearLoop, hlt, if_false]
        have hlo := monthLoop_key_lt y 0 (by omega)
        have hhi := yearLoop_key_ge f2 (y + 1) (r2 - daysInYear y)
        omega
  | succ f1 ih =>
    intro f2 y r1 r2 h1 h2 h
    have hdy := daysInYear_pos y
    by_cases hlt1 : r1 < daysInYear y
    · cases f2 with
      | zero =>
        have hr2 : r2 = 0 := by omega
        subst hr2
        have hr1 : r1 = 0 := by omega
        subst hr1
        simp only [yearLoop, hlt1, if_true]
        exact Nat.le_refl _
      | succ f2 =>
        by_cases hlt2 : r2 < daysInYear y
        · simp only [yearLoop, hlt1, hlt2, if_true]
          exact monthLoop_mono y 11 1 r1 r2 h
        · simp only [yearLoop, hlt1, hlt2, if_true, if_false]
          have hlo := monthLoop_key_lt y r1 (by omega)
          have hhi := yearLoop_key_ge f2 (y + 1) (r2 - daysInYear y)
          omega
    · cases f2 with
      | zero => omega
      | succ f2 =>
        have hlt2 : ¬ r2 < daysInYear y := by omega
        simp only [yearLoop, hlt1, hlt2, if_false]
        exact ih f2 (y + 1) _ _ (by omega) (by omega) (Nat.sub_le_sub_right h _)

theorem civilOfDay_mono (d1 d2 : Nat) (h : d1 ≤ d2) :
    (civilOfDay d1).key ≤ (civilOfDay d2).key :=
  yearLoop_mono d1 d2 1970 d1 d2 (Nat.le_refl _) (Nat.le_refl _) h

theorem localDate_mono (utcOffset : Int) (a b : Nat) (h : a ≤ b) :
    (Moment.localDate utcOffset a).key ≤ (Moment.localDate utcOffset b).key := by
  unfold Moment.localDate
  apply civilOfDay_mono
  apply Nat.div_le_div_right
  apply Int.toNat_le_toNat
  omega

/-! ## The second group of claims -/

/-- C11, as stated, fails in both halves. Against a job that stays `IN_PROGRESS` the
polling loop has not returned after any number of status checks and for no number of
checks does it end with an error, a timeout error included. And on the answers
`IN_PROGRESS`, `IN_PROGRESS`, `COMPLETED` it makes its three status checks one after the
other at one and the same clock reading: no time lies between two checks. -/
theorem C11_counterexample :
    (∀ fuel, pollReportStatus stalledEnv 1 fuel scenarioWorld = none)
      ∧ (¬ ∃ fuel e w1,
          pollReportStatus stalledEnv 1 fuel scenarioWorld = some (Except.error e, w1))
      ∧ ∃ w1 : World,
          pollReportStatus (scenarioEnv ["IN_PROGRESS", "IN_PROGRESS", "COMPLETED"]) 1 3
              scenarioWorld
              = some (Except.ok true, w1)
            ∧ w1.now = scenarioWorld.now
            ∧ w1.log = [Call.getReportJobStatus 1, Call.getReportJobStatus 1,
                Call.getReportJobStatus 1] := by
  have h : ∀ fuel, pollReportStatus stalledEnv 1 fuel scenarioWorld = none :=
    fun fuel => poll_never_returns stalledEnv 1 scenarioWorld (fun _ => rfl) fuel
  refine ⟨h, ?_, afterChecks 1 3 scenarioWorld, ?_, rfl, rfl⟩
  · rintro ⟨fuel, e, w1, hfuel⟩
    rw [h fuel] at hfuel
    exact Option.noConfusion hfuel
  · rfl

/-- C11, amended: polling has no bound and no delay. After n answers `IN_PROGRESS` the
loop has not returned, whatever n is. When the next answer is `COMPLETED` it returns
`true` in a world whose clock reads what it read at the start and whose log has grown
by exactly the n + 1 status checks, one after the other with nothing between them.
Every return of the loop, value or error, comes after an answer other than
`IN_PROGRESS`, with the clock and the store untouched and only status checks logged, so
no return is a timeout. On an unending run of `IN_PROGRESS` the loop returns nothing for
any number of checks. -/
theorem C11_polling_is_unbounded (env : Env) (j n : Nat) (w : World)
    (hprog : ∀ i, i < n → env.statusAt (w.polls + i) = Except.ok "IN_PROGRESS") :
    (∀ f, f ≤ n → pollReportStatus env j f w = none)
      ∧ (env.statusAt (w.polls + n) = Except.ok "COMPLETED" → ∀ fuel, n < fuel →
          ∃ w1 : World,
            pollReportStatus env j fuel w = some (Except.ok true, w1)
              ∧ w1.now = w.now
              ∧ w1.store = w.store
              ∧ w1.log = w.log ++ List.replicate (n + 1) (Call.getReportJobStatus j))
      ∧ (∀ fuel out w1, pollReportStatus env j fuel w = some (out, w1) →
          w1.now = w.now ∧ w1.store = w.store
            ∧ ∃ k, n ≤ k ∧ k < fuel
                ∧ env.statusAt (w.polls + k) ≠ Except.ok "IN_PROGRESS"
                ∧ w1.log = w.log ++ List.replicate (k + 1) (Call.getReportJobStatus j))
      ∧ ((∀ i, env.statusAt (w.polls + i) = Except.ok "IN_PROGRESS") →
          ∀ fuel, pollReportStatus env j fuel w = none) := by
  have hstep : ∀ (w0 : World) (f : Nat), env.statusAt w0.polls = Except.ok "COMPLETED" →
      pollReportStatus env j (f + 1) w0 = some (Except.ok true, afterChecks j 1 w0) := by
    intro w0 f h
    simp [pollReportStatus, h, afterChecks]
  refine ⟨fun f hf => poll_starved env j n f w hprog hf, ?_, ?_,
    fun hstall fuel => poll_never_returns env j w hstall fuel⟩
  · intro hdone fuel hfuel
    obtain ⟨m, rfl⟩ : ∃ m, fuel = n + (m + 1) := ⟨fuel - n - 1, by omega⟩
    refine ⟨afterChecks j (n + 1) w, ?_, rfl, rfl, rfl⟩
    rw [poll_skip_inProgress env j n (m + 1) w hprog,
      hstep (afterChecks j n w) m (by simpa [afterChecks] using hdone), afterChecks_afterChecks]
  · intro fuel out w1 hrun
    obtain ⟨k, hk, hbefore, hother, hw1⟩ := poll_return_shape env j fuel w out w1 hrun
    subst hw1
    refine ⟨rfl, rfl, k, ?_, hk, hother, rfl⟩
    by_contra hlt
    exact hother (hprog k (Nat.lt_of_not_le hlt))

/-- C11 amended, at the answers `IN_PROGRESS`, `IN_PROGRESS`, `COMPLETED`: two checks are
not enough, and the third returns with the clock where it was and three status checks
in the log. -/
theorem C11_witness :
    pollReportStatus (scenarioEnv ["IN_PROGRESS", "IN_PROGRESS", "COMPLETED"]) 1 2 scenarioWorld
        = none
      ∧ ∃ w1 : World,
          pollReportStatus (scenarioEnv ["IN_PROGRESS", "IN_PROGRESS", "COMPLETED"]) 1 3
              scenarioWorld
              = some (Except.ok true, w1)
            ∧ w1.now = 1708000000
            ∧ w1.log = [Call.getReportJobStatus 1, Call.getReportJobStatus 1,
                Call.getReportJobStatus 1] := by
  have h := C11_polling_is_unbounded
    (scenarioEnv ["IN_PROGRESS", "IN_PROGRESS", "COMPLETED"]) 1 2 scenarioWorld
    (by intro i hi; interval_cases i <;> rfl)
  have direct : pollReportStatus (scenarioEnv ["IN_PROGRESS", "IN_PROGRESS", "COMPLETED"]) 1 3
      scenarioWorld = some (Except.ok true, afterChecks 1 3 scenarioWorld) := rfl
  obtain ⟨w1, h1, h2, _, h4⟩ := h.2.1 rfl 3 (by decide)
  rw [direct] at h1
  exact ⟨h.1 2 (Nat.le_refl 2), w1, direct.trans h1, h2, h4⟩

/-- C12: on a cache miss, when the customer's `gamAdvertiserIds` is not an array or is
empty, the request returns the empty result for any fuel; the calls it makes are the
cache read, the customer lookup and one `setex` of the empty result under the campaign
key, none of them a line-item lookup, a job submission, a status check or a download;
the key then holds the serialised empty result. -/
theorem C12_no_advertisers_short_circuit (env : Env) (fuel : Nat) (c : Campaign) (w : World)
    (found : Option (List String))
    (hget : env.redisGetError = none)
    (hmiss : truthy (liveValue w (cacheKey c.id)) = false)
    (hcust : env.customer c.customerId = Except.ok found)
    (hnone : found = none ∨ found = some [])
    (hset : env.redisSetexError = none) :
    ∃ w1 : World,
      gamLineItemReport env fuel c w = some (Except.ok [], w1)
        ∧ w1.log = w.log ++ [Call.redisGet (cacheKey c.id), Call.customerLoad c.customerId,
            Call.redisSetex (cacheKey c.id) 3600 (JSON.stringify [])]
        ∧ (∀ x, x ∈ [Call.redisGet (cacheKey c.id), Call.customerLoad c.customerId,
            Call.redisSetex (cacheKey c.id) 3600 (JSON.stringify [])] → Call.isRemote x = false)
        ∧ liveValue w1 (cacheKey c.id) = some (JSON.stringify [])
        ∧ w1.polls = w.polls := by
  refine ⟨_, report_no_advertisers env fuel c w found hget hmiss hcust hnone hset, ?_, ?_,
    liveValue_worldAfterEmptyResult c _ w, rfl⟩
  · simp [worldAfterEmptyResult]
  · intro x hx
    simp only [List.mem_cons, List.mem_singleton, List.not_mem_nil, or_false] at hx
    rcases hx with rfl | rfl | rfl <;> rfl

/-- C12 at a customer without advertiser ids: no fuel is needed, the poll count stays
zero and the empty result is cached. -/
theorem C12_witness :
    ∃ w1 : World,
      gamLineItemReport
          { scenarioEnv [] with customer := fun _ => Except.ok none } 0 (scenarioCampaign ["L9"])
          scenarioWorld
          = some (Except.ok [], w1)
        ∧ liveValue w1 (cacheKey "C1") = some (JSON.stringify [])
        ∧ w1.polls = 0 := by
  obtain ⟨w1, h1, _, _, h4, h5⟩ := C12_no_advertisers_short_circuit
    { scenarioEnv [] with customer := fun _ => Except.ok none } 0 (scenarioCampaign ["L9"])
    scenarioWorld none rfl rfl rfl (Or.inl rfl) rfl
  exact ⟨w1, h1, h4, h5⟩

/-- C13: every cache write of a report request goes to the campaign key for 3600
seconds. Any run that returns has only appended calls, every `setex` among them is on
the campaign key with 3600 seconds, and none is a delete; `setToCache` is the `setex` of
3600 seconds whatever the result; and on each of the three writing paths (no advertiser
ids, no line items, a decoded report) the entry written expires 3600 seconds after the
request's clock reading. -/
theorem C13_every_write_one_hour_on_campaign_key (env : Env) (fuel : Nat) (c : Campaign)
    (w : World) :
    (∀ out w1, gamLineItemReport env fuel c w = some (out, w1) →
        ∃ calls, w1.log = w.log ++ calls
          ∧ (∀ k seconds data, Call.redisSetex k seconds data ∈ calls →
              k = cacheKey c.id ∧ seconds = 3600)
          ∧ ∀ k, Call.redisDel k ∉ calls)
      ∧ (∀ result, setToCache env (cacheKey c.id) result
          = redis.setexAsync env (cacheKey c.id) 3600 (JSON.stringify result))
      ∧ (env.redisGetError = none → truthy (liveValue w (cacheKey c.id)) = false →
          env.redisSetexError = none →
          (∀ found, env.customer c.customerId = Except.ok found →
              found = none ∨ found = some [] →
              ∃ w1, gamLineItemReport env fuel c w = some (Except.ok [], w1)
                ∧ w1.store.lookup (cacheKey c.id) = some ⟨JSON.stringify [], w.now + 3600⟩)
          ∧ (∀ ids, env.customer c.customerId = Except.ok (some ids) → ids ≠ [] →
              env.lineItems = Except.ok [] →
              ∃ w1, gamLineItemReport env fuel c w = some (Except.ok [], w1)
                ∧ w1.store.lookup (cacheKey c.id) = some ⟨JSON.stringify [], w.now + 3600⟩)
          ∧ (∀ ids nodes j n url body rows,
              env.customer c.customerId = Except.ok (some ids) → ids ≠ [] →
              env.lineItems = Except.ok nodes → nodes ≠ [] →
              env.reportJob = Except.ok j →
              (∀ i, i < n → env.statusAt (w.polls + i) = Except.ok "IN_PROGRESS") →
              env.statusAt (w.polls + n) = Except.ok "COMPLETED" → n < fuel →
              env.downloadUrl = Except.ok url → env.download url = Except.ok body →
              env.decode body = Except.ok rows →
              ∃ w1, gamLineItemReport env fuel c w
                  = some (Except.ok (filterResponse c.excludedGAMLineItemIds rows), w1)
                ∧ w1.store.lookup (cacheKey c.id)
                  = some ⟨JSON.stringify rows, w.now + 3600⟩)) := by
  refine ⟨?_, fun _ => rfl, ?_⟩
  · intro out w1 hrun
    obtain ⟨_, calls, hlog, hall⟩ := report_confined env fuel c w.now w out w1 rfl hrun
    refine ⟨calls, hlog, ?_, ?_⟩
    · intro k seconds data hmem
      have h := hall _ hmem
      simpa [Call.byReport] using h
    · intro k hmem
      have h := hall _ hmem
      simp [Call.byReport] at h
  · intro hget hmiss hset
    refine ⟨?_, ?_, ?_⟩
    · intro found hcust hnone
      exact ⟨_, report_no_advertisers env fuel c w found hget hmiss hcust hnone hset,
        by simp [worldAfterEmptyResult, List.lookup]⟩
    · intro ids hcust hids hnodes
      exact ⟨_, report_no_lineItems env fuel c w ids hget hmiss hcust hids hnodes hset,
        by simp [worldAfterEmptyResult, List.lookup]⟩
    · intro ids nodes j n url body rows hcust hids hnodes hn hjob hprog hdone hfuel hurl hbody
        hrows
      exact ⟨_, report_poll_ok env fuel c w _ ids nodes j true url body rows hget hmiss hcust
          hids hnodes hn hjob
          (poll_completes env j n fuel (worldBeforePoll env c ids nodes w) hprog hdone hfuel)
          hurl hbody hrows hset,
        by simp [worldAfterReport, afterChecks, worldBeforePoll, List.lookup]⟩

/-- C13 at the scenario: the first request wrote once, under the key of campaign `C1`, for
3600 seconds, and the entry expires 3600 seconds after the request. -/
theorem C13_witness :
    (∀ k seconds data, Call.redisSetex k seconds data ∈ cachedWorld.log →
        k = cacheKey "C1" ∧ seconds = 3600)
      ∧ cachedWorld.store.lookup (cacheKey "C1")
        = some ⟨JSON.stringify scenarioRows, 1708000000 + 3600⟩ := by
  have hrun : gamLineItemReport (scenarioEnv ["IN_PROGRESS", "COMPLETED"]) 2
      (scenarioCampaign ["L9"]) scenarioWorld
      = some (Except.ok (filterResponse ["L9"] scenarioRows), cachedWorld) :=
    report_poll_ok (scenarioEnv ["IN_PROGRESS", "COMPLETED"]) 2 (scenarioCampaign ["L9"])
      scenarioWorld _ ["A1"] ["L1", "L9", "L2"] 1 true "https://reports.example/1.csv" "csv"
      scenarioRows rfl rfl rfl (by decide) rfl (by decide) rfl
      (poll_completes (scenarioEnv ["IN_PROGRESS", "COMPLETED"]) 1 1 2 _
        (by intro i hi; interval_cases i; rfl) rfl (by decide))
      rfl rfl rfl rfl
  obtain ⟨calls, hlog, hsetex, _⟩ := (C13_every_write_one_hour_on_campaign_key
    (scenarioEnv ["IN_PROGRESS", "COMPLETED"]) 2 (scenarioCampaign ["L9"]) scenarioWorld).1
    _ _ hrun
  refine ⟨?_, rfl⟩
  intro k seconds data hmem
  rw [hlog] at hmem
  exact hsetex k seconds data (by simpa [scenarioWorld] using hmem)

/-- C14: over the store with get, set-with-expiry and delete. After the cache write of
`rows` for a campaign, a read at any time less than 3600 seconds later finds the
serialised `rows`, which is truthy and parses to exactly `rows` (the empty list
included), so the request is a hit that returns the filtered `rows` after the read
alone; the key has one entry; a later write of other rows replaces it, still as one
entry; and after the hook's delete the key has no entry and no live value at any later
time. -/
theorem C14_cache_coherence (env : Env) (fuel : Nat) (c : Campaign) (w : World)
    (rows later : List ReportRow) (dt : Nat)
    (hget : env.redisGetError = none)
    (hset : env.redisSetexError = none)
    (hdel : env.redisDelError = none)
    (hdt : dt < 3600) :
    ∃ w1 : World,
      setToCache env (cacheKey c.id) rows w = some (Except.ok (), w1)
        ∧ liveValue (elapse dt w1) (cacheKey c.id) = some (JSON.stringify rows)
        ∧ truthy (some (JSON.stringify rows)) = true
        ∧ JSON.parse (JSON.stringify rows) = Except.ok rows
        ∧ gamLineItemReport env fuel c (elapse dt w1)
          = some (Except.ok (filterResponse c.excludedGAMLineItemIds rows),
              { elapse dt w1 with log := w1.log ++ [Call.redisGet (cacheKey c.id)] })
        ∧ entriesUnder (cacheKey c.id) w1.store = 1
        ∧ (∃ w2 : World,
            setToCache env (cacheKey c.id) later (elapse dt w1) = some (Except.ok (), w2)
              ∧ liveValue w2 (cacheKey c.id) = some (JSON.stringify later)
              ∧ entriesUnder (cacheKey c.id) w2.store = 1)
        ∧ ∃ w3 : World,
            clearReportCache env c (elapse dt w1) = some (Except.ok (), w3)
              ∧ entriesUnder (cacheKey c.id) w3.store = 0
              ∧ ∀ dt2, liveValue (elapse dt2 w3) (cacheKey c.id) = none := by
  have hlive : liveValue (elapse dt
      { w with
        log := w.log ++ [Call.redisSetex (cacheKey c.id) 3600 (JSON.stringify rows)],
        store := (cacheKey c.id, ⟨JSON.stringify rows, w.now + 3600⟩)
          :: w.store.filter (fun kv => kv.1 != cacheKey c.id) }) (cacheKey c.id)
      = some (JSON.stringify rows) := by
    simp [liveValue, elapse, List.lookup, hdt]
  refine ⟨_, setToCache_ok env (cacheKey c.id) rows w hset, hlive, rfl, rfl, ?_,
    entriesUnder_fresh _ _ _, ?_, ?_⟩
  · exact report_hit env fuel c _ rows hget hlive
  · refine ⟨_, setToCache_ok env (cacheKey c.id) later _ hset, ?_, entriesUnder_fresh _ _ _⟩
    simp [liveValue, List.lookup]
  · refine ⟨_, clearReportCache_ok env c _ hdel, entriesUnder_deleted _ _, ?_⟩
    intro dt2
    simp [liveValue, elapse, lookup_filter_ne]

/-- C14 at the empty result: cached for campaign `C1`, read 3599 seconds later, it is a
hit that parses to the empty list; after the delete it is absent. -/
theorem C14_witness :
    ∃ w1 : World,
      setToCache (scenarioEnv []) (cacheKey "C1") [] scenarioWorld = some (Except.ok (), w1)
        ∧ liveValue (elapse 3599 w1) (cacheKey "C1") = some (JSON.stringify [])
        ∧ JSON.parse (JSON.stringify []) = Except.ok []
        ∧ ∃ w3 : World,
            clearReportCache (scenarioEnv []) (scenarioCampaign ["L9"]) (elapse 3599 w1)
              = some (Except.ok (), w3)
              ∧ liveValue w3 (cacheKey "C1") = none := by
  obtain ⟨w1, h1, h2, _, h4, _, _, _, w3, h8, _, h10⟩ := C14_cache_coherence (scenarioEnv []) 0
    (scenarioCampaign ["L9"]) scenarioWorld [] scenarioRows 3599 rfl rfl rfl (by decide)
  exact ⟨w1, h1, h2, h4, w3, h8, h10 0⟩

/-- C19: the time window of the report query. A request that misses the cache and finds
advertiser ids and line items submits one job whose start date is the formatted
`windowStart` and whose end date is the formatted `windowEnd`: when the submission is
rejected the request ends right there with the submission as its last call, and when
the job completes the submission is the fourth call of the run; no run submits a job
with other dates. The start is the campaign's `startDate` when present and the
library's five years before now otherwise; the end is the campaign's `endDate` when
present and not later than now, and now when it is absent or later; so the end is never
later than now. With the library modelled by `Moment.format` for a zone, the end date
is the text `YYYY-MM-DD` of a calendar date that is not later than the current date,
and, where the library's five years before now falls on the calendar date five years
before today, the start date of a campaign without one is the text of that date. -/
theorem C19_report_window (env : Env) (fuel : Nat) (c : Campaign) (w : World)
    (ids nodes : List String)
    (hget : env.redisGetError = none)
    (hmiss : truthy (liveValue w (cacheKey c.id)) = false)
    (hcust : env.customer c.customerId = Except.ok (some ids)) (hids : ids ≠ [])
    (hnodes : env.lineItems = Except.ok nodes) (hn : nodes ≠ []) :
    (∀ e, env.reportJob = Except.error e →
        gamLineItemReport env fuel c w
          = some (Except.error e,
              { w with
                log := w.log ++ [Call.redisGet (cacheKey c.id), Call.customerLoad c.customerId,
                  Call.gamLoadMany c.startDate c.endDate ids 500,
                  Call.runReportJob (env.formatDate (windowStart env c w.now))
                    (env.formatDate (windowEnd c w.now))
                    ("WHERE LINE_ITEM_ID IN (" ++ ",".intercalate nodes ++ ")")] }))
      ∧ (∀ j n url body rows, env.reportJob = Except.ok j →
          (∀ i, i < n → env.statusAt (w.polls + i) = Except.ok "IN_PROGRESS") →
          env.statusAt (w.polls + n) = Except.ok "COMPLETED" → n < fuel →
          env.downloadUrl = Except.ok url → env.download url = Except.ok body →
          env.decode body = Except.ok rows → env.redisSetexError = none →
          ∃ w1 : World,
            gamLineItemReport env fuel c w
                = some (Except.ok (filterResponse c.excludedGAMLineItemIds rows), w1)
              ∧ w1.log = w.log
                  ++ [Call.redisGet (cacheKey c.id), Call.customerLoad c.customerId,
                      Call.gamLoadMany c.startDate c.endDate ids 500,
                      Call.runReportJob (env.formatDate (windowStart env c w.now))
                        (env.formatDate (windowEnd c w.now))
                        ("WHERE LINE_ITEM_ID IN (" ++ ",".intercalate nodes ++ ")")]
                  ++ List.replicate (n + 1) (Call.getReportJobStatus j)
                  ++ [Call.getReportDownloadUrl j, Call.fetch url, Call.csvToJson body,
                      Call.redisSetex (cacheKey c.id) 3600 (JSON.stringify rows)])
      ∧ (∀ out w1, gamLineItemReport env fuel c w = some (out, w1) →
          ∃ calls, w1.log = w.log ++ calls
            ∧ ∀ s e q, Call.runReportJob s e q ∈ calls →
                s = env.formatDate (windowStart env c w.now)
                  ∧ e = env.formatDate (windowEnd c w.now))
      ∧ (∀ d, c.startDate = some d → windowStart env c w.now = d)
      ∧ (c.startDate = none → windowStart env c w.now = env.subtractFiveYears w.now)
      ∧ (∀ d, c.endDate = some d → d ≤ w.now → windowEnd c w.now = d)
      ∧ (∀ d, c.endDate = some d → w.now < d → windowEnd c w.now = w.now)
      ∧ (c.endDate = none → windowEnd c w.now = w.now)
      ∧ windowEnd c w.now ≤ w.now
      ∧ (∀ le : String → String → Prop,
          (∀ a b, a ≤ b → le (env.formatDate a) (env.formatDate b)) →
          le (env.formatDate (windowEnd c w.now)) (env.formatDate w.now))
      ∧ ∀ utcOffset : Int, (∀ t, env.formatDate t = Moment.format utcOffset t) →
          env.formatDate (windowEnd c w.now)
              = Moment.formatYMD (Moment.localDate utcOffset (windowEnd c w.now))
            ∧ (Moment.localDate utcOffset (windowEnd c w.now)).key
              ≤ (Moment.localDate utcOffset w.now).key
            ∧ (c.startDate = none →
                Moment.localDate utcOffset (env.subtractFiveYears w.now)
                  = (Moment.localDate utcOffset w.now).minusYears 5 →
                env.formatDate (windowStart env c w.now)
                  = Moment.formatYMD ((Moment.localDate utcOffset w.now).minusYears 5)) := by
  have hle : windowEnd c w.now ≤ w.now := by
    unfold windowEnd
    split <;> omega
  have hstart : c.startDate = none → windowStart env c w.now = env.subtractFiveYears w.now := by
    intro hd
    simp [windowStart, hd]
  refine ⟨?_, ?_, ?_, ?_, hstart, ?_, ?_, ?_, hle, fun le hmono => hmono _ _ hle, ?_⟩
  · intro e hjob
    rw [report_miss env fuel c w hget hmiss]
    cases ids with
    | nil => exact absurd rfl hids
    | cons a as =>
      simp [reportPipeline, andThen, call, getNow, hcust, hnodes, hn, hjob, windowStart,
        windowEnd]
  · intro j n url body rows hjob hprog hdone hfuel hurl hbody hrows hset
    refine ⟨_, report_poll_ok env fuel c w _ ids nodes j true url body rows hget hmiss hcust
      hids hnodes hn hjob
      (poll_completes env j n fuel (worldBeforePoll env c ids nodes w) hprog hdone hfuel)
      hurl hbody hrows hset, ?_⟩
    simp [worldAfterReport, afterChecks, worldBeforePoll, callsBeforePoll, windowStart,
      windowEnd]
  · intro out w1 hrun
    obtain ⟨_, calls, hlog, hall⟩ := report_confined env fuel c w.now w out w1 rfl hrun
    refine ⟨calls, hlog, ?_⟩
    intro s e q hmem
    have h := hall _ hmem
    simpa [Call.byReport] using h
  · intro d hd
    simp [windowStart, hd]
  · intro d hd hle2
    simp [windowEnd, hd]
    omega
  · intro d hd hlt
    simp [windowEnd, hd]
    omega
  · intro hd
    simp [windowEnd, hd]
  · intro utcOffset hfmt
    refine ⟨by rw [hfmt]; rfl, localDate_mono utcOffset _ _ hle, ?_⟩
    intro hnone hfive
    rw [hstart hnone, hfmt, Moment.format, hfive]

/-- C19 at the scenario, on a server six hours behind UTC with the date library modelled.
Campaign `C1` runs from 2024-01-01 to 2024-01-31 and the request is made on 2024-02-15:
the job is submitted for exactly these two dates. For a campaign without a start date
and with an end date after the request, the job is submitted from 2019-02-15 to
2024-02-15. -/
theorem C19_witness :
    (∃ w1 : World,
        gamLineItemReport calendarEnv 2 (scenarioCampaign ["L9"]) scenarioWorld
            = some (Except.ok [rowFor "L1", rowFor "L2"], w1)
          ∧ Call.runReportJob "2024-01-01" "2024-01-31" "WHERE LINE_ITEM_ID IN (L1,L9,L2)"
              ∈ w1.log)
      ∧ (∃ w2 : World,
          gamLineItemReport calendarEnv 2 openCampaign scenarioWorld
              = some (Except.ok [rowFor "L1", rowFor "L9", rowFor "L2"], w2)
            ∧ Call.runReportJob "2019-02-15" "2024-02-15" "WHERE LINE_ITEM_ID IN (L1,L9,L2)"
                ∈ w2.log)
      ∧ calendarEnv.formatDate (windowStart calendarEnv openCampaign 1708000000)
        = Moment.formatYMD ⟨2019, 2, 15⟩ := by
  have hC1 := C19_report_window calendarEnv 2 (scenarioCampaign ["L9"]) scenarioWorld
    ["A1"] ["L1", "L9", "L2"] rfl rfl rfl (by decide) rfl (by decide)
  have hopen := C19_report_window calendarEnv 2 openCampaign scenarioWorld
    ["A1"] ["L1", "L9", "L2"] rfl rfl rfl (by decide) rfl (by decide)
  have direct : gamLineItemReport calendarEnv 2 (scenarioCampaign ["L9"]) scenarioWorld
      = some (Except.ok [rowFor "L1", rowFor "L2"],
          worldAfterReport (scenarioCampaign ["L9"]) 1 "https://reports.example/1.csv" "csv"
            scenarioRows
            (afterChecks 1 2
              (worldBeforePoll calendarEnv (scenarioCampaign ["L9"]) ["A1"] ["L1", "L9", "L2"]
                scenarioWorld))) := rfl
  refine ⟨?_, ?_, ?_⟩
  · obtain ⟨w1, hrun, hlog⟩ := hC1.2.1 1 1 "https://reports.example/1.csv" "csv" scenarioRows
      rfl (by intro i hi; interval_cases i; rfl) rfl (by decide) rfl rfl rfl rfl
    refine ⟨w1, direct.trans (direct.symm.trans hrun), ?_⟩
    rw [hlog]
    decide
  · obtain ⟨w2, hrun, hlog⟩ := hopen.2.1 1 1 "https://reports.example/1.csv" "csv" scenarioRows
      rfl (by intro i hi; interval_cases i; rfl) rfl (by decide) rfl rfl rfl rfl
    refine ⟨w2, hrun, ?_⟩
    rw [hlog]
    decide
  · exact (hopen.2.2.2.2.2.2.2.2.2.2 (-21600) (fun _ => rfl)).2.2 rfl (by decide)

/-- C15: a request that missed the cache and found advertiser ids and line items aborts
with the error of the first failing later step, returning no rows, with the store as it
was before the request and without any cache write. The failing step may be the job
submission, a rejected status check, a `FAILED` status, a status outside the handled
ones, the download-URL query, the download, or the decoding of the downloaded body. -/
theorem C15_failure_after_miss_writes_nothing (env : Env) (fuel : Nat) (c : Campaign)
    (w : World) (ids nodes : List String)
    (hget : env.redisGetError = none)
    (hmiss : truthy (liveValue w (cacheKey c.id)) = false)
    (hcust : env.customer c.customerId = Except.ok (some ids)) (hids : ids ≠ [])
    (hnodes : env.lineItems = Except.ok nodes) (hn : nodes ≠ []) :
    (∀ e, env.reportJob = Except.error e → AbortsWith env fuel c w e)
      ∧ ∀ j n, env.reportJob = Except.ok j →
          (∀ i, i < n → env.statusAt (w.polls + i) = Except.ok "IN_PROGRESS") → n < fuel →
          (∀ e, env.statusAt (w.polls + n) = Except.error e → AbortsWith env fuel c w e)
            ∧ (env.statusAt (w.polls + n) = Except.ok "FAILED" →
                AbortsWith env fuel c w "Report creation failed!")
            ∧ (∀ status, env.statusAt (w.polls + n) = Except.ok status →
                status ≠ "IN_PROGRESS" → status ≠ "COMPLETED" → status ≠ "FAILED" →
                AbortsWith env fuel c w
                  ("Unknown report status encountered: '" ++ status ++ "'"))
            ∧ (env.statusAt (w.polls + n) = Except.ok "COMPLETED" →
                (∀ e, env.downloadUrl = Except.error e → AbortsWith env fuel c w e)
                  ∧ ∀ url, env.downloadUrl = Except.ok url →
                      (∀ e, env.download url = Except.error e → AbortsWith env fuel c w e)
                        ∧ ∀ body, env.download url = Except.ok body →
                            ∀ e, env.decode body = Except.error e →
                              AbortsWith env fuel c w e) := by
  refine ⟨?_, ?_⟩
  · intro e hjob
    exact ⟨_, report_submit_error env fuel c w ids nodes e hget hmiss hcust hids hnodes hn hjob,
      rfl, by simp [worldBeforePoll, callsBeforePoll, Call.isCacheWrite]⟩
  · intro j n hjob hprog hfuel
    have hwrites := fun extra h => cacheWrites_afterChecks env c ids nodes j (n + 1) w extra h
    refine ⟨?_, ?_, ?_, ?_⟩
    · intro e hrej
      exact ⟨_, report_poll_error env fuel c w _ ids nodes j e hget hmiss hcust hids hnodes hn
          hjob (poll_rejected env j n fuel (worldBeforePoll env c ids nodes w) e hprog hrej hfuel),
        rfl, by simpa using hwrites [] rfl⟩
    · intro hfail
      exact ⟨_, report_poll_error env fuel c w _ ids nodes j _ hget hmiss hcust hids hnodes hn
          hjob (poll_fails env j n fuel (worldBeforePoll env c ids nodes w) hprog hfail hfuel),
        rfl, by simpa using hwrites [] rfl⟩
    · intro status hst h1 h2 h3
      exact ⟨_, report_poll_error env fuel c w _ ids nodes j _ hget hmiss hcust hids hnodes hn
          hjob (poll_unknown env j n fuel (worldBeforePoll env c ids nodes w) status hprog hst
            h1 h2 h3 hfuel),
        rfl, by simpa using hwrites [] rfl⟩
    · intro hdone
      have hafter := report_after_poll env fuel c w _ ids nodes j true hget hmiss hcust hids
        hnodes hn hjob
        (poll_completes env j n fuel (worldBeforePoll env c ids nodes w) hprog hdone hfuel)
      refine ⟨?_, ?_⟩
      · intro e hurl
        refine ⟨{ afterChecks j (n + 1) (worldBeforePoll env c ids nodes w) with
            log := (afterChecks j (n + 1) (worldBeforePoll env c ids nodes w)).log
              ++ [Call.getReportDownloadUrl j] }, ?_, rfl, hwrites _ rfl⟩
        rw [hafter]
        simp [andThen, call, hurl]
      · intro url hurl
        refine ⟨?_, ?_⟩
        · intro e hbody
          refine ⟨{ afterChecks j (n + 1) (worldBeforePoll env c ids nodes w) with
              log := (afterChecks j (n + 1) (worldBeforePoll env c ids nodes w)).log
                ++ [Call.getReportDownloadUrl j, Call.fetch url] }, ?_, rfl, hwrites _ rfl⟩
          rw [hafter]
          simp [andThen, call, hurl, hbody]
        · intro body hbody e hrows
          refine ⟨{ afterChecks j (n + 1) (worldBeforePoll env c ids nodes w) with
              log := (afterChecks j (n + 1) (worldBeforePoll env c ids nodes w)).log
                ++ [Call.getReportDownloadUrl j, Call.fetch url, Call.csvToJson body] },
            ?_, rfl, hwrites _ rfl⟩
          rw [hafter]
          simp [andThen, call, hurl, hbody, hrows]

/-- C15 at a malformed download: the job completes, the decoder rejects the body, and the
request ends with the decoder's error, the cache still empty. -/
theorem C15_witness :
    ∃ w1 : World,
      gamLineItemReport malformedEnv 2 (scenarioCampaign ["L9"]) scenarioWorld
          = some (Except.error "CSV parse error: unclosed quote", w1)
        ∧ w1.store = []
        ∧ w1.log.filter Call.isCacheWrite = [] := by
  obtain ⟨w1, h1, h2, h3⟩ := ((((C15_failure_after_miss_writes_nothing malformedEnv 2
    (scenarioCampaign ["L9"]) scenarioWorld ["A1"] ["L1", "L9", "L2"] rfl rfl rfl (by decide)
    rfl (by decide)).2 1 1 rfl (by intro i hi; interval_cases i; rfl)
    (by decide)).2.2.2 rfl).2 "https://reports.example/1.csv" rfl).2 "csv" rfl
    "CSV parse error: unclosed quote" rfl
  exact ⟨w1, h1, h2, h3⟩

/-- C16, as stated, fails: with text that is not JSON under the key of campaign `C1`, the
request ends with the parse error after the cache read alone; it runs no pipeline (no
customer lookup) and the corrupt entry is still the live value afterwards. -/
theorem C16_counterexample :
    gamLineItemReport (scenarioEnv ["IN_PROGRESS", "COMPLETED"]) 2 (scenarioCampaign ["L9"])
        corruptWorld
        = some (Except.error "SyntaxError: Unexpected token in JSON: [unterminated",
            { corruptWorld with log := [Call.redisGet (cacheKey "C1")] })
      ∧ liveValue { corruptWorld with log := [Call.redisGet (cacheKey "C1")] } (cacheKey "C1")
        = some (Payload.garbage "[unterminated") :=
  ⟨report_corrupt (scenarioEnv ["IN_PROGRESS", "COMPLETED"]) 2 (scenarioCampaign ["L9"])
    corruptWorld (Payload.garbage "[unterminated") _ rfl rfl rfl rfl, rfl⟩

/-- C16, amended: when the live text under the campaign key is non-empty and `JSON.parse`
rejects it, the request ends with that parse error; its only call is the cache read,
the store is untouched, so the corrupt entry stays, and no pipeline step runs. -/
theorem C16_corrupt_entry_raises (env : Env) (fuel : Nat) (c : Campaign) (w : World)
    (text : Payload) (e : String)
    (hget : env.redisGetError = none)
    (hlive : liveValue w (cacheKey c.id) = some text)
    (htruthy : truthy (some text) = true)
    (hparse : JSON.parse text = Except.error e) :
    gamLineItemReport env fuel c w
        = some (Except.error e, { w with log := w.log ++ [Call.redisGet (cacheKey c.id)] })
      ∧ liveValue { w with log := w.log ++ [Call.redisGet (cacheKey c.id)] } (cacheKey c.id)
        = some text :=
  ⟨report_corrupt env fuel c w text e hget hlive htruthy hparse, hlive⟩

/-- C16 amended, at the corrupt entry of the scenario, with no fuel at all. -/
theorem C16_witness :
    gamLineItemReport (scenarioEnv []) 0 (scenarioCampaign []) corruptWorld
      = some (Except.error "SyntaxError: Unexpected token in JSON: [unterminated",
          { corruptWorld with log := corruptWorld.log ++ [Call.redisGet (cacheKey "C1")] }) :=
  (C16_corrupt_entry_raises (scenarioEnv []) 0 (scenarioCampaign []) corruptWorld
    (Payload.garbage "[unterminated") _ rfl rfl rfl rfl).1

/-- C17, as stated, fails: with a store that rejects reads the request ends with the
store's error after the cache read; with a store that rejects writes the request runs
the whole pipeline and then ends with the store's error instead of the rows. -/
theorem C17_counterexample :
    gamLineItemReport readOutageEnv 2 (scenarioCampaign ["L9"]) scenarioWorld
        = some (Except.error "Connection is closed.",
            { scenarioWorld with log := [Call.redisGet (cacheKey "C1")] })
      ∧ ∃ w1 : World,
          gamLineItemReport writeOutageEnv 2 (scenarioCampaign ["L9"]) scenarioWorld
            = some (Except.error "Connection is closed.", w1)
          ∧ Call.csvToJson "csv" ∈ w1.log := by
  refine ⟨report_read_rejected readOutageEnv 2 (scenarioCampaign ["L9"]) scenarioWorld _ rfl,
    _, report_write_rejected writeOutageEnv 2 (scenarioCampaign ["L9"]) scenarioWorld _ ["A1"]
      ["L1", "L9", "L2"] 1 true "https://reports.example/1.csv" "csv" scenarioRows _
      rfl rfl rfl (by decide) rfl (by decide) rfl
      (poll_completes writeOutageEnv 1 1 2 _ (by intro i hi; interval_cases i; rfl) rfl
        (by decide))
      rfl rfl rfl rfl, ?_⟩
  simp

/-- C17, amended: cache-store errors reach the caller. A rejected read ends the request
with the rejection after the read alone, no pipeline step run. A rejected write ends
the request with the rejection in place of the result: in place of the empty result
when the customer has no advertiser ids, and in place of the filtered report after the
job completed and the download was decoded; the store is unchanged in both. -/
theorem C17_store_errors_reach_caller (env : Env) (fuel : Nat) (c : Campaign) (w : World)
    (e : String) :
    (env.redisGetError = some e →
        gamLineItemReport env fuel c w
          = some (Except.error e, { w with log := w.log ++ [Call.redisGet (cacheKey c.id)] }))
      ∧ (env.redisGetError = none → truthy (liveValue w (cacheKey c.id)) = false →
          env.redisSetexError = some e →
          (∀ found, env.customer c.customerId = Except.ok found →
              found = none ∨ found = some [] →
              gamLineItemReport env fuel c w
                = some (Except.error e,
                    { w with
                      log := w.log ++ [Call.redisGet (cacheKey c.id),
                        Call.customerLoad c.customerId,
                        Call.redisSetex (cacheKey c.id) 3600 (JSON.stringify [])] }))
            ∧ ∀ ids nodes j n url body rows,
                env.customer c.customerId = Except.ok (some ids) → ids ≠ [] →
                env.lineItems = Except.ok nodes → nodes ≠ [] →
                env.reportJob = Except.ok j →
                (∀ i, i < n → env.statusAt (w.polls + i) = Except.ok "IN_PROGRESS") →
                env.statusAt (w.polls + n) = Except.ok "COMPLETED" → n < fuel →
                env.downloadUrl = Except.ok url → env.download url = Except.ok body →
                env.decode body = Except.ok rows →
                ∃ w1 : World,
                  gamLineItemReport env fuel c w = some (Except.error e, w1)
                    ∧ w1.store = w.store
                    ∧ w1.log = w.log ++ callsBeforePoll env c ids nodes w.now
                        ++ List.replicate (n + 1) (Call.getReportJobStatus j)
                        ++ [Call.getReportDownloadUrl j, Call.fetch url, Call.csvToJson body,
                            Call.redisSetex (cacheKey c.id) 3600 (JSON.stringify rows)]) := by
  refine ⟨fun hget => report_read_rejected env fuel c w e hget, ?_⟩
  intro hget hmiss hset
  refine ⟨fun found hcust hnone =>
    report_no_advertisers_write_rejected env fuel c w found e hget hmiss hcust hnone hset, ?_⟩
  intro ids nodes j n url body rows hcust hids hnodes hn hjob hprog hdone hfuel hurl hbody hrows
  refine ⟨_, report_write_rejected env fuel c w _ ids nodes j true url body rows e hget hmiss
    hcust hids hnodes hn hjob
    (poll_completes env j n fuel (worldBeforePoll env c ids nodes w) hprog hdone hfuel)
    hurl hbody hrows hset, rfl, ?_⟩
  simp [afterChecks, worldBeforePoll]

/-- C17 amended, at a store that rejects reads, and at a store that rejects the write of
the empty result. -/
theorem C17_witness :
    gamLineItemReport readOutageEnv 0 (scenarioCampaign ["L9"]) scenarioWorld
        = some (Except.error "Connection is closed.",
            { scenarioWorld with
              log := scenarioWorld.log ++ [Call.redisGet (cacheKey "C1")] })
      ∧ gamLineItemReport { writeOutageEnv with customer := fun _ => Except.ok (some []) } 0
          (scenarioCampaign ["L9"]) scenarioWorld
        = some (Except.error "Connection is closed.",
            { scenarioWorld with
              log := scenarioWorld.log ++ [Call.redisGet (cacheKey "C1"),
                Call.customerLoad "K1",
                Call.redisSetex (cacheKey "C1") 3600 (JSON.stringify [])] }) :=
  ⟨(C17_store_errors_reach_caller readOutageEnv 0 (scenarioCampaign ["L9"]) scenarioWorld
      "Connection is closed.").1 rfl,
   ((C17_store_errors_reach_caller { writeOutageEnv with customer := fun _ => Except.ok (some []) }
      0 (scenarioCampaign ["L9"]) scenarioWorld "Connection is closed.").2 rfl rfl rfl).1
      (some []) rfl (Or.inr rfl)⟩

/-- C18: the post-save hook resolves whatever the delete does. When the delete succeeds
the hook logs the delete alone; when it is rejected the hook logs the delete and hands
the rejection to the error logger, and store and campaigns are untouched. In both cases
a save whose persist succeeded resolves with the saved document, and the collection
holds that document. -/
theorem C18_hook_never_fails_the_save (env : Env) (campaign : Campaign) (w : World) :
    (∃ w1 : World,
        clearReportCache env campaign w = some (Except.ok (), w1)
          ∧ w1.campaigns = w.campaigns
          ∧ (env.redisDelError = none →
              w1.log = w.log ++ [Call.redisDel (cacheKey campaign.id)])
          ∧ ∀ e, env.redisDelError = some e →
              w1.log = w.log ++ [Call.redisDel (cacheKey campaign.id), Call.noticeError e]
                ∧ w1.store = w.store)
      ∧ (env.persistError = none →
          ∃ w2 : World,
            Campaign.save env campaign w = some (Except.ok campaign, w2)
              ∧ w2.campaigns
                = w.campaigns.map (fun c => if c.id = campaign.id then campaign else c)
              ∧ ∀ e, env.redisDelError = some e →
                  w2.log = w.log ++ [Call.campaignPersist campaign.id,
                    Call.redisDel (cacheKey campaign.id), Call.noticeError e]) := by
  constructor
  · cases hd : env.redisDelError with
    | none =>
      exact ⟨_, clearReportCache_ok env campaign w hd, rfl, fun _ => rfl,
        fun e he => Option.noConfusion he⟩
    | some e0 =>
      refine ⟨_, clearReportCache_rejected env campaign w e0 hd, rfl,
        fun he => Option.noConfusion he, ?_⟩
      intro e he
      cases he
      exact ⟨rfl, rfl⟩
  · intro hpersist
    rw [save_ok env campaign w hpersist]
    cases hd : env.redisDelError with
    | none => exact ⟨_, rfl, rfl, fun e he => Option.noConfusion he⟩
    | some e0 =>
      refine ⟨_, rfl, rfl, ?_⟩
      intro e he
      cases he
      rfl

/-- C18 at a store that rejects the delete: the save of campaign `C1` resolves with the
document and the rejection is in the log as a call to the error logger. -/
theorem C18_witness :
    ∃ w2 : World,
      Campaign.save deleteOutageEnv (scenarioCampaign []) cachedWorld
          = some (Except.ok (scenarioCampaign []), w2)
        ∧ w2.campaigns = [scenarioCampaign []]
        ∧ w2.log = cachedWorld.log ++ [Call.campaignPersist "C1",
            Call.redisDel (cacheKey "C1"), Call.noticeError "Connection is closed."] := by
  obtain ⟨w2, h1, h2, h3⟩ := (C18_hook_never_fails_the_save deleteOutageEnv
    (scenarioCampaign []) cachedWorld).2 rfl
  exact ⟨w2, h1, by rw [h2]; rfl, h3 _ rfl⟩

/-- C20: the code at the failing input. The mutation stores `V2` as the campaign's video
exclusion list, yet the video report for the customer's videos `V1`, `V2` asks for both
and returns both: the report filters by the line-item exclusion list (`L9` here). With
`V1` in the line-item exclusion list and an empty video exclusion list the report asks
for `V2` alone. -/
theorem C20_video_report_filters_by_line_item_list :
    (∃ c w1 w2,
        videoMetricsExcludedBrightcoveVideoIds videoEnv "C1" ["V2"] scenarioWorld
            = some (Except.ok c, w1)
          ∧ c.excludedBrightcoveVideoIds = ["V2"]
          ∧ c.excludedGAMLineItemIds = ["L9"]
          ∧ brightcoveVideoReport videoEnv c w1
            = some (Except.ok ⟨2, ["V1", "V2"], false, false⟩, w2)
          ∧ Call.getBrightcoveReport ["V1", "V2"] 1704088800 1706767199 ∈ w2.log)
      ∧ ∃ w3,
          brightcoveVideoReport videoEnv (scenarioCampaign ["V1"]) scenarioWorld
            = some (Except.ok ⟨1, ["V2"], false, false⟩, w3)
          ∧ (scenarioCampaign ["V1"]).excludedBrightcoveVideoIds = [] := by
  refine ⟨⟨_, _, _, rfl, rfl, rfl, rfl, ?_⟩, _, rfl, rfl⟩
  decide

/-! ## Facts about the helpers of the campaign resolvers -/

theorem mem_firstOccurrences (l : List String) (x : String) :
    x ∈ firstOccurrences l ↔ x ∈ l := by
  induction l with
  | nil => simp [firstOccurrences]
  | cons a rest ih =>
    by_cases h : x = a
    · simp [firstOccurrences, h]
    · simp [firstOccurrences, List.mem_filter, ih, h]

theorem nodup_firstOccurrences (l : List String) : (firstOccurrences l).Nodup := by
  induction l with
  | nil => simp [firstOccurrences]
  | cons a rest ih =>
    simp only [firstOccurrences, List.nodup_cons]
    refine ⟨?_, ih.filter _⟩
    simp [List.mem_filter]

/-- Removing duplicates commutes with keeping the values that pass a test. -/
theorem firstOccurrences_filter (p : String → Bool) (l : List String) :
    firstOccurrences (l.filter p) = (firstOccurrences l).filter p := by
  induction l with
  | nil => simp [firstOccurrences]
  | cons a rest ih =>
    by_cases hp : p a = true
    · rw [List.filter_cons_of_pos hp]
      simp only [firstOccurrences]
      rw [List.filter_cons_of_pos hp, ih, List.filter_filter, List.filter_filter]
      congr 1
      apply List.filter_congr
      intro x _
      exact Bool.and_comm _ _
    · rw [List.filter_cons_of_neg hp]
      simp only [firstOccurrences]
      rw [List.filter_cons_of_neg hp, ih, List.filter_filter]
      apply List.filter_congr
      intro x _
      by_cases hx : x = a
      · subst hx
        simp [hp]
      · simp [hx]

/-- Inserting the values of a list into a set that already holds `inserted` appends,
in first-occurrence order, the values that were not yet there. -/
theorem insert_all (l inserted : List String) :
    l.foldl (fun acc f => if acc.contains f then acc else acc ++ [f]) inserted
      = inserted ++ firstOccurrences (l.filter (fun x => !(inserted.contains x))) := by
  induction l generalizing inserted with
  | nil => simp [firstOccurrences]
  | cons a rest ih =>
    rw [List.foldl_cons]
    by_cases ha : inserted.contains a = true
    · rw [if_pos ha, ih, List.filter_cons_of_neg (by simpa using ha)]
    · rw [if_neg ha, ih, List.filter_cons_of_pos (by simpa using ha)]
      simp only [firstOccurrences, List.append_assoc, List.singleton_append]
      congr 2
      rw [← firstOccurrences_filter, List.filter_filter]
      congr 1
      apply List.filter_congr
      intro x _
      by_cases hx : x = a
      · subst hx
        simp
      · simp [hx, Bool.and_comm]

/-- The spread of a set built from a list is the list without its duplicates, in
first-occurrence order. -/
theorem newSet_eq_firstOccurrences (l : List String) : newSet l = firstOccurrences l := by
  unfold newSet
  rw [insert_all]
  simp

/-- The keys of the admin-only identity attributes: the phone number alone. -/
theorem adminOnly_keys :
    (identityAttributes.filter (fun f => f.adminOnly)).map (fun f => f.key) = ["phoneNumber"] := by
  decide

/-- For a caller who is not an admin the result is the requested fields followed by the
admin-only keys, without duplicates. -/
theorem handleExcludedFields_nonAdmin (excludeFields : Option (List String)) :
    handleExcludedFields excludeFields false
      = firstOccurrences (excludeFields.getD []
          ++ (identityAttributes.filter (fun f => f.adminOnly)).map (fun f => f.key)) := by
  cases excludeFields <;> simp [handleExcludedFields, newSet_eq_firstOccurrences]

/-- For an admin the result is the requested fields without duplicates. -/
theorem handleExcludedFields_admin (excludeFields : Option (List String)) :
    handleExcludedFields excludeFields true = firstOccurrences (excludeFields.getD []) := by
  cases excludeFields <;> simp [handleExcludedFields, newSet_eq_firstOccurrences]

/-! ## The third group of claims -/

/-- C21: for a caller who is not an admin and every requested value, an array or not,
`handleExcludedFields` returns a list without duplicates that holds every requested
field and the key of every admin-only identity attribute, `phoneNumber` among them, and
nothing else; for an admin the result is the requested array with its duplicates
removed, in first-occurrence order, and the empty list when the value is not an
array. -/
theorem C21_handleExcludedFields_keeps_admin_only (excludeFields : Option (List String)) :
    (handleExcludedFields excludeFields false).Nodup
      ∧ (∀ requested, excludeFields = some requested →
          ∀ x, x ∈ requested → x ∈ handleExcludedFields excludeFields false)
      ∧ (∀ f, f ∈ identityAttributes → f.adminOnly = true →
          f.key ∈ handleExcludedFields excludeFields false)
      ∧ "phoneNumber" ∈ handleExcludedFields excludeFields false
      ∧ (∀ x, x ∈ handleExcludedFields excludeFields false →
          x = "phoneNumber" ∨ ∃ requested, excludeFields = some requested ∧ x ∈ requested)
      ∧ (∀ requested, handleExcludedFields (some requested) true = firstOccurrences requested)
      ∧ handleExcludedFields none true = []
      ∧ ∀ requested, (handleExcludedFields (some requested) true).Nodup
          ∧ ∀ x, x ∈ handleExcludedFields (some requested) true ↔ x ∈ requested := by
  have hkeys : ∀ f, f ∈ identityAttributes → f.adminOnly = true →
      f.key ∈ handleExcludedFields excludeFields false := by
    intro f hf hadmin
    rw [handleExcludedFields_nonAdmin, mem_firstOccurrences]
    apply List.mem_append_right
    exact List.mem_map.mpr ⟨f, List.mem_filter.mpr ⟨hf, hadmin⟩, rfl⟩
  refine ⟨?_, ?_, hkeys, ?_, ?_, ?_, ?_, ?_⟩
  · rw [handleExcludedFields_nonAdmin]
    exact nodup_firstOccurrences _
  · intro requested hreq x hx
    rw [handleExcludedFields_nonAdmin, mem_firstOccurrences, hreq]
    exact List.mem_append_left _ hx
  · exact hkeys ⟨"phoneNumber", "Phone #", true⟩ (by decide) rfl
  · intro x hx
    rw [handleExcludedFields_nonAdmin, mem_firstOccurrences, adminOnly_keys] at hx
    rcases List.mem_append.mp hx with h | h
    · cases excludeFields with
      | none => simp at h
      | some requested => exact Or.inr ⟨requested, rfl, by simpa using h⟩
    · exact Or.inl (by simpa using h)
  · intro requested
    rw [handleExcludedFields_admin]
    rfl
  · rw [handleExcludedFields_admin]
    rfl
  · intro requested
    rw [handleExcludedFields_admin]
    exact ⟨nodup_firstOccurrences _, fun x => mem_firstOccurrences _ x⟩

/-- C21 at a request that repeats `title` and leaves the phone number out: a caller who
is not an admin gets `title`, `city` and the phone number, an admin gets `title` and
`city`. -/
theorem C21_witness :
    handleExcludedFields (some ["title", "city", "title"]) false
        = ["title", "city", "phoneNumber"]
      ∧ handleExcludedFields (some ["title", "city", "title"]) true = ["title", "city"]
      ∧ handleExcludedFields none false = ["phoneNumber"] := by
  have h := C21_handleExcludedFields_keeps_admin_only (some ["title", "city", "title"])
  refine ⟨by decide, ?_, by decide⟩
  rw [h.2.2.2.2.2.1]
  decide

/-- C22: for a caller who is not an admin `calcMax` returns `max` unchanged when
1 ≤ max ≤ 200 and 200 when `max` is missing or outside that range, so the result lies
in [1, 200]; for an admin it returns `max` unchanged when max > 0 and 0 when `max` is
missing, zero or negative, so the result is never negative. -/
theorem C22_calcMax_bounds (max : Option ℚ) :
    (∀ m, max = some m → 1 ≤ m → m ≤ 200 → calcMax false max = some m)
      ∧ (max = none → calcMax false max = some 200)
      ∧ (∀ m, max = some m → m < 1 ∨ 200 < m → calcMax false max = some 200)
      ∧ (∃ r, calcMax false max = some r ∧ 1 ≤ r ∧ r ≤ 200)
      ∧ (∀ m, max = some m → 0 < m → calcMax true max = some m)
      ∧ (max = none → calcMax true max = some 0)
      ∧ (∀ m, max = some m → m ≤ 0 → calcMax true max = some 0)
      ∧ ∃ r, calcMax true max = some r ∧ 0 ≤ r := by
  have keep : ∀ m : ℚ, 1 ≤ m → m ≤ 200 → calcMax false (some m) = some m := by
    intro m h1 h2
    have h0 : m ≠ 0 := by
      intro h
      rw [h] at h1
      norm_num at h1
    simp [calcMax, notMax, maxBelow, maxAbove, h0, not_lt.mpr h1, not_lt.mpr h2]
  have clamp : ∀ m : ℚ, m < 1 ∨ 200 < m → calcMax false (some m) = some 200 := by
    intro m h
    rcases h with h | h
    · simp [calcMax, notMax, maxBelow, maxAbove, h]
    · simp [calcMax, notMax, maxBelow, maxAbove, h]
  have keepAdmin : ∀ m : ℚ, 0 < m → calcMax true (some m) = some m := by
    intro m h
    simp [calcMax, notMax, maxBelow, ne_of_gt h, not_lt.mpr (le_of_lt h)]
  have zeroAdmin : ∀ m : ℚ, m ≤ 0 → calcMax true (some m) = some 0 := by
    intro m h
    rcases lt_or_eq_of_le h with h | h
    · simp [calcMax, notMax, maxBelow, h]
    · simp [calcMax, notMax, maxBelow, h]
  refine ⟨?_, ?_, ?_, ?_, ?_, ?_, ?_, ?_⟩
  · intro m hm h1 h2
    rw [hm]
    exact keep m h1 h2
  · intro hm
    rw [hm]
    rfl
  · intro m hm h
    rw [hm]
    exact clamp m h
  · cases max with
    | none => exact ⟨200, rfl, by norm_num, by norm_num⟩
    | some m =>
      by_cases h : m < 1 ∨ 200 < m
      · exact ⟨200, clamp m h, by norm_num, by norm_num⟩
      · push_neg at h
        exact ⟨m, keep m h.1 h.2, h.1, h.2⟩
  · intro m hm h
    rw [hm]
    exact keepAdmin m h
  · intro hm
    rw [hm]
    rfl
  · intro m hm h
    rw [hm]
    exact zeroAdmin m h
  · cases max with
    | none => exact ⟨0, rfl, le_refl 0⟩
    | some m =>
      by_cases h : 0 < m
      · exact ⟨m, keepAdmin m h, le_of_lt h⟩
      · exact ⟨0, zeroAdmin m (not_lt.mp h), le_refl 0⟩

/-- C22 at some values: 150 is kept for both callers, 500 becomes 200 for a caller who
is not an admin and is kept for an admin, and -3 becomes 200 and 0. -/
theorem C22_witness :
    calcMax false (some 150) = some 150
      ∧ calcMax false (some 500) = some 200
      ∧ calcMax true (some 500) = some 500
      ∧ calcMax false (some (-3)) = some 200
      ∧ calcMax true (some (-3)) = some 0 :=
  ⟨(C22_calcMax_bounds (some 150)).1 150 rfl (by norm_num) (by norm_num),
   (C22_calcMax_bounds (some 500)).2.2.1 500 rfl (Or.inr (by norm_num)),
   (C22_calcMax_bounds (some 500)).2.2.2.2.1 500 rfl (by norm_num),
   (C22_calcMax_bounds (some (-3))).2.2.1 (-3) rfl (Or.inl (by norm_num)),
   (C22_calcMax_bounds (some (-3))).2.2.2.2.2.2.1 (-3) rfl (by norm_num)⟩

/-- C23: the code at the failing input. For an email campaign whose `excludeUrls` is an
array, with one entry here, the resolver returns the email campaign document and not
that array; this holds for every array, the empty one included. When the field is not an
array the resolver returns the empty list. -/
theorem C23_excludeUrls_returns_the_document :
    EmailCampaign.excludeUrls ⟨"E1", some [⟨"U1", "S1"⟩]⟩
        = ResolverValue.document ⟨"E1", some [⟨"U1", "S1"⟩]⟩
      ∧ EmailCampaign.excludeUrls ⟨"E1", some [⟨"U1", "S1"⟩]⟩
        ≠ ResolverValue.array [⟨"U1", "S1"⟩]
      ∧ (∀ id entries, EmailCampaign.excludeUrls ⟨id, some entries⟩
          = ResolverValue.document ⟨id, some entries⟩)
      ∧ ∀ id, EmailCampaign.excludeUrls ⟨id, none⟩ = ResolverValue.array [] := by
  refine ⟨rfl, ?_, fun _ _ => rfl, fun _ => rfl⟩
  intro h
  exact ResolverValue.noConfusion h

end LeadManagement
